import Mathlib

/-!
Flappy Bird (script.js): shallow embedding of the simulation core.

Numbers of the script are modelled as rationals, the score as a natural number.
The sums of the physics step (updateBird) and of the gap of a new pipe (spawnPipe)
are rounded to IEEE 754 doubles as the script computes them; the pipe scroll and
the comparisons of the collision, scoring and pruning tests are exact on the
integer positions of play and are written without rounding.  The canvas size,
the wall clock (Date.now), the random draw (Math.random) and the handle returned
by requestAnimationFrame are read from the host; they are explicit arguments
here.  Sound and drawing calls do not touch the simulation state and are left
out.
-/

namespace FlappyBird

/-! ## Double arithmetic

A JavaScript number is an IEEE 754 binary64 value and every arithmetic operation returns
the double nearest to the exact result, ties going to the even mantissa.  The finite
doubles are rationals; roundDouble is that rounding on the rationals, with the gradual
underflow below 2^-1022.  Results of magnitude 2^1024 and above, which the script would
turn into Infinity, are outside the model. -/

/-- The integer nearest to t, ties going to the even one. -/
def roundHalfEven (t : ℚ) : ℤ :=
  let f := ⌊t⌋
  if t - f < 1 / 2 then f
  else if 1 / 2 < t - f then f + 1
  else if f % 2 = 0 then f else f + 1

/-- Binary search for the largest exponent e in [lo, hi] with 2^e <= a (lo if there is
none), in at most fuel halvings. -/
def binadeSearch (a : ℚ) : ℕ → ℤ → ℤ → ℤ
  | 0, lo, _ => lo
  | fuel + 1, lo, hi =>
    if hi ≤ lo then lo
    else if (2 : ℚ) ^ ((lo + hi + 1) / 2) ≤ a then binadeSearch a fuel ((lo + hi + 1) / 2) hi
    else binadeSearch a fuel lo ((lo + hi + 1) / 2 - 1)

/-- Exponent of the binade of q: the e with 2^e <= |q| < 2^(e+1), kept between the least
and the greatest exponent of a normal double. -/
def binade (q : ℚ) : ℤ := binadeSearch |q| 11 (-1022) 1023

/-- Spacing of the doubles in the binade of q. -/
def ulp (q : ℚ) : ℚ := 2 ^ (binade q - 52)

/-- The double nearest to q (round to nearest, ties to even). -/
def roundDouble (q : ℚ) : ℚ :=
  if q = 0 then 0 else (roundHalfEven (q / ulp q) : ℚ) * ulp q

/-! ## Tuning constants (script.js lines 7-13, 103-105) -/

/-- The literal 0.35 of line 7 denotes the double nearest to 35/100. -/
def GRAVITY : ℚ := roundDouble (35 / 100)
def JUMP_STRENGTH : ℚ := -8
def PIPE_SPEED : ℚ := 3
def PIPE_GAP : ℚ := 140
def PIPE_SPAWN_INTERVAL : ℚ := 1800
def BIRD_RADIUS : ℚ := 15
def GROUND_Y_OFFSET : ℚ := 80

/-- Size of the canvas element, read from the page at start-up. -/
structure Canvas where
  width : ℚ
  height : ℚ

def CANVAS_WIDTH (c : Canvas) : ℚ := c.width
def CANVAS_HEIGHT (c : Canvas) : ℚ := c.height
def GROUND_Y (c : Canvas) : ℚ := CANVAS_HEIGHT c - GROUND_Y_OFFSET

def PIPE_WIDTH : ℚ := 60
def PIPE_MIN_TOP : ℚ := 80
def PIPE_MAX_TOP (c : Canvas) : ℚ := GROUND_Y c - PIPE_GAP - 80

/-! ## Game state (script.js lines 28-33) -/

inductive GameState where
  | start
  | playing
  | gameover
  deriving DecidableEq, Repr

structure Bird where
  x : ℚ
  y : ℚ
  velocityY : ℚ
  radius : ℚ
  deriving DecidableEq, Repr

structure Pipe where
  x : ℚ
  width : ℚ
  gapTop : ℚ
  gapBottom : ℚ
  scored : Bool
  deriving DecidableEq, Repr

/-- The mutable globals of the script. -/
structure State where
  gameState : GameState
  score : ℕ
  bird : Option Bird
  pipes : List Pipe
  lastPipeTime : ℚ
  animationId : Option ℕ
  deriving DecidableEq, Repr

/-! ## Bird (script.js lines 75-100) -/

def createBird (c : Canvas) : Bird :=
  { x := CANVAS_WIDTH c * (3 / 10), y := CANVAS_HEIGHT c / 2, velocityY := 0,
    radius := BIRD_RADIUS }

/-- The globals once the script has loaded (lines 28-33 and the initial draw, line 294). -/
def initialState (c : Canvas) : State :=
  { gameState := .start, score := 0, bird := some (createBird c), pipes := [],
    lastPipeTime := 0, animationId := none }

def updateBird (s : State) : State :=
  if s.gameState ≠ .playing then s
  else
    match s.bird with
    | none => s
    | some b =>
      let b1 : Bird := { b with velocityY := roundDouble (b.velocityY + GRAVITY) }
      let b2 : Bird := { b1 with y := roundDouble (b1.y + b1.velocityY) }
      let b3 : Bird :=
        if roundDouble (b2.y - b2.radius) < 0 then { b2 with y := b2.radius, velocityY := 0 }
        else b2
      { s with bird := some b3 }

def jumpBird (s : State) : State :=
  match s.bird with
  | none => s
  | some b => { s with bird := some { b with velocityY := JUMP_STRENGTH } }

/-! ## Pipes (script.js lines 107-138) -/

/-- The pipe pushed by spawnPipe for the random draw u. -/
def newPipe (c : Canvas) (u : ℚ) : Pipe :=
  let gapTop :=
    roundDouble (PIPE_MIN_TOP + roundDouble (u * roundDouble (PIPE_MAX_TOP c - PIPE_MIN_TOP)))
  let gapBottom := roundDouble (gapTop + PIPE_GAP)
  { x := CANVAS_WIDTH c, width := PIPE_WIDTH, gapTop := gapTop, gapBottom := gapBottom,
    scored := false }

def spawnPipe (c : Canvas) (u : ℚ) (s : State) : State :=
  { s with pipes := s.pipes ++ [newPipe c u] }

/-- The spawn step at the head of updatePipes (lines 122-126). -/
def spawnStep (c : Canvas) (now u : ℚ) (s : State) : State :=
  if now - s.lastPipeTime > PIPE_SPAWN_INTERVAL then
    { spawnPipe c u s with lastPipeTime := now }
  else s

/-- The test of line 130, on a pipe that has already been scrolled. -/
def scoreTest (bird : Option Bird) (pipe : Pipe) : Bool :=
  !pipe.scored &&
    (match bird with
     | none => false
     | some b => decide (b.x - b.radius > pipe.x + pipe.width))

/-- One iteration of the for loop of updatePipes (lines 128-135): the pipe and the score after it. -/
def pipeBody (bird : Option Bird) (pipe : Pipe) (score : ℕ) : Pipe × ℕ :=
  let pipe1 : Pipe := { pipe with x := pipe.x - PIPE_SPEED }
  if scoreTest bird pipe1 then ({ pipe1 with scored := true }, score + 1)
  else (pipe1, score)

/-- The for loop of updatePipes (lines 127-136), threading the score. -/
def pipeLoop (bird : Option Bird) : List Pipe → ℕ → List Pipe × ℕ
  | [], score => ([], score)
  | pipe :: rest, score =>
    let r := pipeBody bird pipe score
    let t := pipeLoop bird rest r.2
    (r.1 :: t.1, t.2)

def updatePipes (c : Canvas) (now u : ℚ) (s : State) : State :=
  if s.gameState ≠ .playing then s
  else
    let s1 := spawnStep c now u s
    let r := pipeLoop s1.bird s1.pipes s1.score
    { s1 with pipes := r.1.filter (fun p => decide (p.x + p.width > 0)), score := r.2 }

/-! ## Collision detection (script.js lines 141-179) -/

def circleRect (cx cy r rx ry rw rh : ℚ) : Bool :=
  let closestX := max rx (min cx (rx + rw))
  let closestY := max ry (min cy (ry + rh))
  let dx := cx - closestX
  let dy := cy - closestY
  decide (dx * dx + dy * dy ≤ r * r)

def endGame (s : State) : State :=
  { s with gameState := .gameover }

/-- The condition of lines 163-166 for one pipe. -/
def pipeHit (c : Canvas) (x y radius : ℚ) (pipe : Pipe) : Bool :=
  circleRect x y radius pipe.x 0 pipe.width pipe.gapTop ||
    circleRect x y radius pipe.x pipe.gapBottom pipe.width (CANVAS_HEIGHT c - pipe.gapBottom)

/-- The pipe loop of checkCollisions (lines 160-170), leaving at the first hit. -/
def checkPipes (c : Canvas) (x y radius : ℚ) : List Pipe → State → State
  | [], s => s
  | pipe :: rest, s =>
    if pipeHit c x y radius pipe then endGame s
    else checkPipes c x y radius rest s

def checkCollisions (c : Canvas) (s : State) : State :=
  if s.gameState ≠ .playing then s
  else
    match s.bird with
    | none => s
    | some b =>
      if b.y + b.radius ≥ GROUND_Y c then endGame s
      else checkPipes c b.x b.y b.radius s.pipes s

/-! ## Game loop and start (script.js lines 236-270) -/

/-- One call of gameLoop; frameId is the handle requestAnimationFrame returns. -/
def gameLoop (c : Canvas) (now u : ℚ) (frameId : ℕ) (s : State) : State :=
  if s.gameState = .gameover then { s with animationId := none }
  else
    let s1 := updateBird s
    let s2 := updatePipes c now u s1
    let s3 := checkCollisions c s2
    { s3 with animationId := some frameId }

def startGame (c : Canvas) (now : ℚ) (frameId : ℕ) (_s : State) : State :=
  { gameState := .playing, score := 0, bird := some (createBird c), pipes := [],
    lastPipeTime := now, animationId := some frameId }

/-- The click handler (lines 282-286); the key handler routes the same way. -/
def onClick (c : Canvas) (now : ℚ) (frameId : ℕ) (s : State) : State :=
  match s.gameState with
  | .start => startGame c now frameId s
  | .playing => jumpBird s
  | .gameover => startGame c now frameId s

/-! ## Runs of the game -/

/-- What can happen to a running game: a frame of the loop, or a jump command. -/
inductive Input where
  | tick (now u : ℚ) (frameId : ℕ)
  | jump

def step (c : Canvas) : Input → State → State
  | .tick now u frameId, s => gameLoop c now u frameId s
  | .jump, s => jumpBird s

def run (c : Canvas) : List Input → State → State
  | [], s => s
  | i :: rest, s => run c rest (step c i s)

/-- Whether an input is a frame of the loop. -/
def isTick : Input → Bool
  | .tick _ _ _ => true
  | .jump => false

/-- Number of pipes of a list with the scored flag set. -/
def scoredCount (ps : List Pipe) : ℕ := ps.countP (fun p => p.scored)

/-- Number of pipes of a list that the filter of line 137 drops. -/
def prunedCount (ps : List Pipe) : ℕ := ps.countP (fun p => !decide (p.x + p.width > 0))

/-- Number of pipes that updatePipes drops on state s: those the loop produced and the
filter of line 137 removes. -/
def prunedBy (c : Canvas) (now u : ℚ) (s : State) : ℕ :=
  if s.gameState ≠ .playing then 0
  else
    prunedCount (pipeLoop (spawnStep c now u s).bird (spawnStep c now u s).pipes
      (spawnStep c now u s).score).1

/-- Number of pipes dropped along a run. -/
def prunedInRun (c : Canvas) : List Input → State → ℕ
  | [], _ => 0
  | .tick now u frameId :: rest, s =>
    (if s.gameState = .gameover then 0 else prunedBy c now u (updateBird s)) +
      prunedInRun c rest (gameLoop c now u frameId s)
  | .jump :: rest, s => prunedInRun c rest (jumpBird s)

/-- States reachable from a call of startGame by frames (random draws in [0, 1)),
jumps and further calls of startGame. -/
inductive Reachable (c : Canvas) : State → Prop where
  | start (s0 : State) (now : ℚ) (frameId : ℕ) : Reachable c (startGame c now frameId s0)
  | tick (s : State) (now u : ℚ) (frameId : ℕ) :
      Reachable c s → 0 ≤ u → u < 1 → Reachable c (gameLoop c now u frameId s)
  | jump (s : State) : Reachable c s → Reachable c (jumpBird s)

/-- How one iteration of the loop of updatePipes relates a pipe p to its successor q, for a
bird at x with the given radius: scrolled, same shape, scored by the test of line 130. -/
def ScoredStep (x radius : ℚ) (p q : Pipe) : Prop :=
  q.x = p.x - PIPE_SPEED ∧ q.width = p.width ∧ q.gapTop = p.gapTop ∧
    q.gapBottom = p.gapBottom ∧
    (p.scored = false → (q.scored = true ↔ x - radius > (p.x - PIPE_SPEED) + p.width)) ∧
    (p.scored = true → q.scored = true)

/-! ## Sample inputs -/

def sampleCanvas : Canvas := { width := 400, height := 600 }

def sampleBird : Bird := { x := 120, y := 200, velocityY := 0, radius := 15 }

def samplePipes : List Pipe :=
  [ { x := -61, width := 60, gapTop := 100, gapBottom := 240, scored := true },
    { x := 100, width := 60, gapTop := 150, gapBottom := 290, scored := false },
    { x := 40, width := 60, gapTop := 200, gapBottom := 340, scored := false } ]

/-- A state after a crash on the ground: the bird was still falling. -/
def crashedState : State :=
  { gameState := .gameover, score := 3,
    bird := some { x := 120, y := 510, velocityY := 9, radius := 15 },
    pipes := [], lastPipeTime := 0, animationId := none }

/-- A playing state whose bird reaches the ground line on the next frame. -/
def fallingState : State :=
  { gameState := .playing, score := 3,
    bird := some { x := 120, y := 500, velocityY := 9, radius := 15 },
    pipes := [], lastPipeTime := 0, animationId := some 4 }

/-- A playing state with one pipe at x = 400, well ahead of the bird. -/
def scrollState : State :=
  { gameState := .playing, score := 0, bird := some sampleBird,
    pipes := [ { x := 400, width := 60, gapTop := 100, gapBottom := 240, scored := false } ],
    lastPipeTime := 0, animationId := some 1 }

/-- A playing state whose only pipe has its right edge, after the scroll of the next frame,
at 110: behind the centre of the bird (120) and ahead of its left edge (105). -/
def centrePassedState : State :=
  { gameState := .playing, score := 0, bird := some sampleBird,
    pipes := [ { x := 53, width := 60, gapTop := 100, gapBottom := 300, scored := false } ],
    lastPipeTime := 0, animationId := some 1 }

/-- A pipe whose gap (150 to 290) contains the sample bird (185 to 215) vertically. -/
def gapPipe : Pipe :=
  { x := 100, width := 60, gapTop := 150, gapBottom := 290, scored := false }

/-- The ordering property of a pipe list: x strictly increasing along the list, and every
pipe at least one scroll step left of the spawn position. -/
def PipesOrdered (c : Canvas) (ps : List Pipe) : Prop :=
  ps.Pairwise (fun p q => p.x < q.x) ∧ ∀ p ∈ ps, p.x ≤ CANVAS_WIDTH c - PIPE_SPEED

/-- Ten frames in a row, none of them late enough to spawn a pipe. -/
def tenTicks : List Input := List.replicate 10 (Input.tick 0 0 1)

/-- Two late frames, each spawning a pipe, with a jump between them. -/
def spawnRun : List Input := [Input.tick 2000 (1 / 2) 2, Input.jump, Input.tick 4000 (1 / 4) 3]

/-- A bird above the top of the canvas, moving down: y = -1.24, velocityY = 1.55,
radius = 0.66, each the double that the decimal literal denotes. -/
def clampSumBird : Bird :=
  { x := 120, y := roundDouble (-124 / 100), velocityY := roundDouble (155 / 100),
    radius := roundDouble (66 / 100) }

def clampSumState : State :=
  { gameState := .playing, score := 0, bird := some clampSumBird, pipes := [],
    lastPipeTime := 0, animationId := some 1 }

/-- A playing state right after a jump. -/
def jumpedState : State :=
  { gameState := .playing, score := 0,
    bird := some { x := 120, y := 300, velocityY := -8, radius := 15 },
    pipes := [], lastPipeTime := 0, animationId := some 1 }

/-- A bird just under the ceiling line of its radius, rising slowly: y = 14.7,
velocityY = -0.05 (the doubles of these literals), radius = 15. -/
def nearCeilingBird : Bird :=
  { x := 120, y := roundDouble (147 / 10), velocityY := roundDouble (-5 / 100), radius := 15 }

def nearCeilingState : State :=
  { gameState := .playing, score := 0, bird := some nearCeilingBird, pipes := [],
    lastPipeTime := 0, animationId := some 1 }

/-- The draw 0.7417869892607294 of Math.random (the double of this literal). -/
def unluckyDraw : ℚ := roundDouble (7417869892607294 / 10000000000000000)

/-- A playing state whose only pipe, still unscored, leaves the canvas on the next frame. -/
def lateState : State :=
  { gameState := .playing, score := 0, bird := some sampleBird,
    pipes := [ { x := -58, width := 60, gapTop := 100, gapBottom := 240, scored := false } ],
    lastPipeTime := 0, animationId := some 1 }

def sampleState : State :=
  { gameState := .playing, score := 1, bird := some sampleBird, pipes := samplePipes,
    lastPipeTime := 0, animationId := some 1 }

/-! ## Lemmas on the rounding -/

theorem roundHalfEven_cases (t : ℚ) :
    roundHalfEven t = ⌊t⌋ ∨ roundHalfEven t = ⌊t⌋ + 1 := by
  unfold roundHalfEven
  simp only
  split
  · exact Or.inl rfl
  · split
    · exact Or.inr rfl
    · split
      · exact Or.inl rfl
      · exact Or.inr rfl

theorem roundHalfEven_intCast (k : ℤ) : roundHalfEven (k : ℚ) = k := by
  unfold roundHalfEven
  simp

theorem abs_roundHalfEven_sub_le (t : ℚ) : |(roundHalfEven t : ℚ) - t| ≤ 1 / 2 := by
  have h1 := Int.floor_le t
  have h2 := Int.lt_floor_add_one t
  unfold roundHalfEven
  simp only
  split
  · rename_i h
    rw [abs_le]
    constructor <;> linarith
  · rename_i h
    split
    · rename_i h'
      rw [abs_le]
      push_cast
      constructor <;> linarith
    · rename_i h'
      have he : t - ⌊t⌋ = 1 / 2 := le_antisymm (not_lt.mp h') (not_lt.mp h)
      split
      · rw [abs_le]
        constructor <;> linarith
      · rw [abs_le]
        push_cast
        constructor <;> linarith

theorem roundHalfEven_mono {s t : ℚ} (h : s ≤ t) : roundHalfEven s ≤ roundHalfEven t := by
  have hfl : ⌊s⌋ ≤ ⌊t⌋ := Int.floor_mono h
  rcases lt_or_eq_of_le hfl with hlt | heq
  · have h1 : roundHalfEven s ≤ ⌊s⌋ + 1 := by
      rcases roundHalfEven_cases s with h | h <;> omega
    have h2 : ⌊t⌋ ≤ roundHalfEven t := by
      rcases roundHalfEven_cases t with h | h <;> omega
    omega
  · have hfrac : s - ⌊s⌋ ≤ t - ⌊t⌋ := by
      rw [heq]
      linarith
    unfold roundHalfEven
    simp only
    rw [heq] at hfrac ⊢
    by_cases a1 : s - ⌊t⌋ < 1 / 2
    · rw [if_pos a1]
      split
      · exact le_refl _
      · split
        · omega
        · split <;> omega
    · rw [if_neg a1]
      have b1 : ¬ t - ⌊t⌋ < 1 / 2 := fun hb => a1 (lt_of_le_of_lt hfrac hb)
      rw [if_neg b1]
      by_cases a2 : 1 / 2 < s - ⌊t⌋
      · rw [if_pos a2, if_pos (lt_of_lt_of_le a2 hfrac)]
      · rw [if_neg a2]
        by_cases b2 : 1 / 2 < t - ⌊t⌋
        · rw [if_pos b2]
          split <;> omega
        · rw [if_neg b2]

theorem roundDouble_zero : roundDouble 0 = 0 := by
  simp [roundDouble]

theorem ulp_pos (q : ℚ) : 0 < ulp q := by
  unfold ulp
  positivity

theorem roundDouble_of_ne (q : ℚ) (hq : q ≠ 0) :
    roundDouble q = (roundHalfEven (q / ulp q) : ℚ) * ulp q := by
  unfold roundDouble
  rw [if_neg hq]

theorem roundHalfEven_nonneg {t : ℚ} (h : 0 ≤ t) : 0 ≤ roundHalfEven t := by
  have := roundHalfEven_mono h
  rw [show ((0 : ℚ)) = ((0 : ℤ) : ℚ) by simp, roundHalfEven_intCast] at this
  exact this

theorem roundHalfEven_nonpos {t : ℚ} (h : t ≤ 0) : roundHalfEven t ≤ 0 := by
  have := roundHalfEven_mono h
  rw [show ((0 : ℚ)) = ((0 : ℤ) : ℚ) by simp, roundHalfEven_intCast] at this
  exact this

theorem roundDouble_nonneg {q : ℚ} (h : 0 ≤ q) : 0 ≤ roundDouble q := by
  by_cases hq : q = 0
  · rw [hq, roundDouble_zero]
  · rw [roundDouble_of_ne q hq]
    have h1 : 0 ≤ q / ulp q := div_nonneg h (ulp_pos q).le
    have h2 : (0 : ℚ) ≤ (roundHalfEven (q / ulp q) : ℚ) := by
      exact_mod_cast roundHalfEven_nonneg h1
    exact mul_nonneg h2 (ulp_pos q).le

theorem roundDouble_nonpos {q : ℚ} (h : q ≤ 0) : roundDouble q ≤ 0 := by
  by_cases hq : q = 0
  · rw [hq, roundDouble_zero]
  · rw [roundDouble_of_ne q hq]
    have h1 : q / ulp q ≤ 0 := div_nonpos_of_nonpos_of_nonneg h (ulp_pos q).le
    have h2 : (roundHalfEven (q / ulp q) : ℚ) ≤ 0 := by
      exact_mod_cast roundHalfEven_nonpos h1
    exact mul_nonpos_of_nonpos_of_nonneg h2 (ulp_pos q).le

theorem binadeSearch_spec (a : ℚ) (fuel : ℕ) (lo hi : ℤ) (hle : lo ≤ hi)
    (hf : hi - lo < 2 ^ fuel) :
    lo ≤ binadeSearch a fuel lo hi ∧ binadeSearch a fuel lo hi ≤ hi ∧
      (lo < binadeSearch a fuel lo hi → (2 : ℚ) ^ binadeSearch a fuel lo hi ≤ a) ∧
      (binadeSearch a fuel lo hi < hi → a < (2 : ℚ) ^ (binadeSearch a fuel lo hi + 1)) := by
  induction fuel generalizing lo hi with
  | zero =>
    simp only [pow_zero] at hf
    have : hi = lo := by omega
    subst this
    simp [binadeSearch]
  | succ n ih =>
    unfold binadeSearch
    by_cases h1 : hi ≤ lo
    · rw [if_pos h1]
      have : hi = lo := le_antisymm h1 hle
      subst this
      simp
    · rw [if_neg h1]
      rw [pow_succ] at hf
      have hm1 : lo < (lo + hi + 1) / 2 := by omega
      have hm2 : (lo + hi + 1) / 2 ≤ hi := by omega
      by_cases h2 : (2 : ℚ) ^ ((lo + hi + 1) / 2) ≤ a
      · rw [if_pos h2]
        have hf2 : hi - (lo + hi + 1) / 2 < 2 ^ n := by
          generalize (2 : ℤ) ^ n = P at hf ⊢
          omega
        obtain ⟨r1, r2, r3, r4⟩ := ih ((lo + hi + 1) / 2) hi hm2 hf2
        refine ⟨by omega, r2, fun _ => ?_, r4⟩
        rcases eq_or_lt_of_le r1 with heq | hlt
        · rw [← heq]
          exact h2
        · exact r3 hlt
      · rw [if_neg h2]
        have hf2 : (lo + hi + 1) / 2 - 1 - lo < 2 ^ n := by
          generalize (2 : ℤ) ^ n = P at hf ⊢
          omega
        obtain ⟨r1, r2, r3, r4⟩ := ih lo ((lo + hi + 1) / 2 - 1) (by omega) hf2
        refine ⟨r1, by omega, r3, fun _ => ?_⟩
        rcases eq_or_lt_of_le r2 with heq | hlt
        · rw [heq]
          rw [show (lo + hi + 1) / 2 - 1 + 1 = (lo + hi + 1) / 2 by ring]
          exact not_le.mp h2
        · exact r4 hlt

theorem binade_spec (q : ℚ) :
    -1022 ≤ binade q ∧ binade q ≤ 1023 ∧
      (-1022 < binade q → (2 : ℚ) ^ binade q ≤ |q|) ∧
      (binade q < 1023 → |q| < (2 : ℚ) ^ (binade q + 1)) :=
  binadeSearch_spec |q| 11 (-1022) 1023 (by norm_num) (by norm_num)

theorem binade_mono {x y : ℚ} (hx : 0 < x) (h : x ≤ y) : binade x ≤ binade y := by
  obtain ⟨_, x2, x3, _⟩ := binade_spec x
  obtain ⟨y1, _, _, y4⟩ := binade_spec y
  by_contra hcon
  have hlt : binade y < binade x := not_le.mp hcon
  have hy := y4 (by omega)
  have hxx := x3 (by omega)
  rw [abs_of_pos hx] at hxx
  rw [abs_of_pos (lt_of_lt_of_le hx h)] at hy
  have hz : (2 : ℚ) ^ (binade y + 1) ≤ 2 ^ binade x :=
    zpow_le_zpow_right₀ (by norm_num) (by omega)
  linarith

theorem abs_roundDouble_sub_le (q : ℚ) : |roundDouble q - q| ≤ ulp q / 2 := by
  by_cases hq : q = 0
  · rw [hq, roundDouble_zero]
    simp only [sub_self, abs_zero]
    exact div_nonneg (ulp_pos 0).le (by norm_num)
  · rw [roundDouble_of_ne q hq]
    have hu := ulp_pos q
    have h := abs_roundHalfEven_sub_le (q / ulp q)
    have e : (roundHalfEven (q / ulp q) : ℚ) * ulp q - q =
        ((roundHalfEven (q / ulp q) : ℚ) - q / ulp q) * ulp q := by
      field_simp
    rw [e, abs_mul, abs_of_pos hu]
    calc |(roundHalfEven (q / ulp q) : ℚ) - q / ulp q| * ulp q ≤ 1 / 2 * ulp q :=
          mul_le_mul_of_nonneg_right h hu.le
      _ = ulp q / 2 := by ring

theorem two_zpow_binade_le {q : ℚ} (hq : 0 < q) (hb : -1022 < binade q) :
    (2 : ℚ) ^ binade q ≤ q := by
  have h := (binade_spec q).2.2.1 hb
  rwa [abs_of_pos hq] at h

theorem lt_two_zpow_binade_succ (q : ℚ) (hq : 0 < q) (hb : binade q < 1023) :
    q < (2 : ℚ) ^ (binade q + 1) := by
  have h := (binade_spec q).2.2.2 hb
  rwa [abs_of_pos hq] at h

theorem pow53_mul_ulp (q : ℚ) : ((2 ^ 53 : ℤ) : ℚ) * ulp q = (2 : ℚ) ^ (binade q + 1) := by
  unfold ulp
  have h : ((2 ^ 53 : ℤ) : ℚ) = (2 : ℚ) ^ (53 : ℤ) := by norm_num
  rw [h, ← zpow_add₀ (by norm_num : (2 : ℚ) ≠ 0)]
  congr 1
  ring

theorem pow52_mul_ulp (q : ℚ) : ((2 ^ 52 : ℤ) : ℚ) * ulp q = (2 : ℚ) ^ binade q := by
  unfold ulp
  have h : ((2 ^ 52 : ℤ) : ℚ) = (2 : ℚ) ^ (52 : ℤ) := by norm_num
  rw [h, ← zpow_add₀ (by norm_num : (2 : ℚ) ≠ 0)]
  congr 1
  ring

theorem roundDouble_le_zpow {q : ℚ} (hq : 0 < q) (hb : binade q < 1023) :
    roundDouble q ≤ (2 : ℚ) ^ (binade q + 1) := by
  rw [roundDouble_of_ne q hq.ne']
  have hu := ulp_pos q
  have ht : q / ulp q ≤ ((2 ^ 53 : ℤ) : ℚ) := by
    rw [div_le_iff₀ hu]
    have := lt_two_zpow_binade_succ q hq hb
    rw [pow53_mul_ulp]
    exact this.le
  have hr := roundHalfEven_mono ht
  rw [roundHalfEven_intCast] at hr
  have hr2 : (roundHalfEven (q / ulp q) : ℚ) ≤ ((2 ^ 53 : ℤ) : ℚ) := by exact_mod_cast hr
  calc (roundHalfEven (q / ulp q) : ℚ) * ulp q ≤ ((2 ^ 53 : ℤ) : ℚ) * ulp q :=
        mul_le_mul_of_nonneg_right hr2 hu.le
    _ = (2 : ℚ) ^ (binade q + 1) := pow53_mul_ulp q

theorem zpow_le_roundDouble {q : ℚ} (hq : 0 < q) (hb : -1022 < binade q) :
    (2 : ℚ) ^ binade q ≤ roundDouble q := by
  rw [roundDouble_of_ne q hq.ne']
  have hu := ulp_pos q
  have e := pow52_mul_ulp q
  have ht : ((2 ^ 52 : ℤ) : ℚ) ≤ q / ulp q := by
    rw [le_div_iff₀ hu, e]
    exact two_zpow_binade_le hq hb
  have hr := roundHalfEven_mono ht
  rw [roundHalfEven_intCast] at hr
  have hr2 : ((2 ^ 52 : ℤ) : ℚ) ≤ (roundHalfEven (q / ulp q) : ℚ) := by exact_mod_cast hr
  calc (2 : ℚ) ^ binade q = ((2 ^ 52 : ℤ) : ℚ) * ulp q := e.symm
    _ ≤ (roundHalfEven (q / ulp q) : ℚ) * ulp q := mul_le_mul_of_nonneg_right hr2 hu.le

theorem roundDouble_mono_nonneg {x y : ℚ} (hx : 0 ≤ x) (h : x ≤ y) :
    roundDouble x ≤ roundDouble y := by
  rcases eq_or_lt_of_le hx with h0 | hpos
  · rw [← h0, roundDouble_zero]
    exact roundDouble_nonneg (le_trans hx h)
  · have hy : 0 < y := lt_of_lt_of_le hpos h
    have hb := binade_mono hpos h
    rcases eq_or_lt_of_le hb with heq | hlt
    · rw [roundDouble_of_ne x hpos.ne', roundDouble_of_ne y hy.ne']
      have hu : ulp x = ulp y := by
        unfold ulp
        rw [heq]
      rw [hu]
      have hq : x / ulp y ≤ y / ulp y := div_le_div_of_nonneg_right h (ulp_pos y).le
      have hr : (roundHalfEven (x / ulp y) : ℚ) ≤ (roundHalfEven (y / ulp y) : ℚ) := by
        exact_mod_cast roundHalfEven_mono hq
      exact mul_le_mul_of_nonneg_right hr (ulp_pos y).le
    · have hby : -1022 < binade y := by
        have : -1022 ≤ binade x := (binade_spec x).1
        omega
      have hbx : binade x < 1023 := by
        have : binade y ≤ 1023 := (binade_spec y).2.1
        omega
      calc roundDouble x ≤ (2 : ℚ) ^ (binade x + 1) := roundDouble_le_zpow hpos hbx
        _ ≤ (2 : ℚ) ^ binade y := zpow_le_zpow_right₀ (by norm_num) (by omega)
        _ ≤ roundDouble y := zpow_le_roundDouble hy hby

theorem binade_of_one_le {q : ℚ} (hq : 1 ≤ q) : 0 ≤ binade q := by
  have hpos : 0 < q := lt_of_lt_of_le one_pos hq
  obtain ⟨_, b2, _, b4⟩ := binade_spec q
  by_contra hcon
  have hlt : binade q < 0 := not_le.mp hcon
  have h := b4 (by omega)
  rw [abs_of_pos hpos] at h
  have hz : (2 : ℚ) ^ (binade q + 1) ≤ 2 ^ (0 : ℤ) :=
    zpow_le_zpow_right₀ (by norm_num) (by omega)
  rw [zpow_zero] at hz
  linarith

theorem roundDouble_natCast (n : ℕ) (h : n < 2 ^ 53) : roundDouble (n : ℚ) = n := by
  by_cases hn : n = 0
  · rw [hn]
    simp [roundDouble_zero]
  · have hq : (n : ℚ) ≠ 0 := by exact_mod_cast hn
    have h1 : (1 : ℚ) ≤ n := by exact_mod_cast Nat.one_le_iff_ne_zero.mpr hn
    have hb0 := binade_of_one_le h1
    have hb52 : binade (n : ℚ) ≤ 52 := by
      by_contra hcon
      have h53 : 53 ≤ binade (n : ℚ) := by omega
      have h2 := two_zpow_binade_le (lt_of_lt_of_le one_pos h1) (by omega)
      have hz : (2 : ℚ) ^ (53 : ℤ) ≤ 2 ^ binade (n : ℚ) :=
        zpow_le_zpow_right₀ (by norm_num) h53
      have hn2 : (n : ℚ) < 2 ^ (53 : ℤ) := by
        have h3 : ((n : ℕ) : ℚ) < ((2 ^ 53 : ℕ) : ℚ) := by exact_mod_cast h
        have h4 : ((2 ^ 53 : ℕ) : ℚ) = 2 ^ (53 : ℤ) := by norm_num
        rw [h4] at h3
        exact h3
      linarith
    have hu : ulp (n : ℚ) = ((2 : ℚ) ^ (52 - binade (n : ℚ)).toNat)⁻¹ := by
      unfold ulp
      rw [← zpow_natCast, ← zpow_neg]
      congr 1
      rw [Int.toNat_of_nonneg (by omega)]
      ring
    rw [roundDouble_of_ne _ hq, hu, div_inv_eq_mul]
    have hc : (n : ℚ) * (2 : ℚ) ^ (52 - binade (n : ℚ)).toNat =
        (((n * 2 ^ (52 - binade (n : ℚ)).toNat : ℕ) : ℤ) : ℚ) := by
      push_cast
      ring
    rw [hc, roundHalfEven_intCast]
    push_cast
    field_simp

theorem two_zpow_binade_le_abs {q : ℚ} (hb : -1022 < binade q) :
    (2 : ℚ) ^ binade q ≤ |q| := by
  exact (binade_spec q).2.2.1 hb

theorem ulp_le_of_one_le {q : ℚ} (hq : 1 ≤ q) : ulp q ≤ q * 2 ^ (-52 : ℤ) := by
  have hpos : 0 < q := lt_of_lt_of_le one_pos hq
  have hb : -1022 < binade q := by
    have := binade_of_one_le hq
    omega
  have h2 := two_zpow_binade_le hpos hb
  unfold ulp
  rw [show binade q - 52 = binade q + (-52) by ring, zpow_add₀ (by norm_num : (2 : ℚ) ≠ 0)]
  exact mul_le_mul_of_nonneg_right h2 (by positivity)

theorem abs_roundDouble_sub_le_of_one_le {q : ℚ} (hq : 1 ≤ q) :
    |roundDouble q - q| ≤ q * 2 ^ (-53 : ℤ) := by
  have h1 := abs_roundDouble_sub_le q
  have h2 := ulp_le_of_one_le hq
  have e : q * (2 : ℚ) ^ (-53 : ℤ) = q * 2 ^ (-52 : ℤ) / 2 := by
    rw [show (-53 : ℤ) = -52 + (-1) by norm_num, zpow_add₀ (by norm_num : (2 : ℚ) ≠ 0)]
    norm_num
    ring
  rw [e]
  exact le_trans h1 (div_le_div_of_nonneg_right h2 (by norm_num))

theorem abs_le_of_roundDouble_eq_zero {q : ℚ} (h : roundDouble q = 0) :
    |q| ≤ 2 ^ (-1075 : ℤ) := by
  by_cases hq : q = 0
  · rw [hq, abs_zero]
    positivity
  · have hu := ulp_pos q
    have herr := abs_roundDouble_sub_le q
    rw [h, zero_sub, abs_neg] at herr
    have hb : binade q = -1022 := by
      by_contra hne
      have hlt : -1022 < binade q := by
        have : -1022 ≤ binade q := (binade_spec q).1
        omega
      have h1 := two_zpow_binade_le_abs hlt
      have h2 := pow52_mul_ulp q
      have h3 : (1 : ℚ) ≤ ((2 ^ 52 : ℤ) : ℚ) := by norm_num
      nlinarith
    have hu2 : ulp q = 2 ^ (-1074 : ℤ) := by
      unfold ulp
      rw [hb]
      norm_num
    rw [hu2] at herr
    have e : (2 : ℚ) ^ (-1074 : ℤ) / 2 = 2 ^ (-1075 : ℤ) := by
      rw [show (-1075 : ℤ) = -1074 + (-1) by norm_num, zpow_add₀ (by norm_num : (2 : ℚ) ≠ 0)]
      norm_num
    rw [e] at herr
    exact herr

theorem roundDouble_grid (q : ℚ) : ∃ k : ℤ, roundDouble q = k * 2 ^ (-1074 : ℤ) := by
  by_cases hq : q = 0
  · exact ⟨0, by rw [hq, roundDouble_zero]; simp⟩
  · have hb : -1022 ≤ binade q := (binade_spec q).1
    refine ⟨roundHalfEven (q / ulp q) * 2 ^ (binade q - 52 + 1074).toNat, ?_⟩
    rw [roundDouble_of_ne q hq]
    push_cast
    rw [mul_assoc]
    congr 1
    unfold ulp
    rw [← zpow_natCast, ← zpow_add₀ (by norm_num : (2 : ℚ) ≠ 0)]
    congr 1
    rw [Int.toNat_of_nonneg (by omega)]
    ring

theorem roundDouble_sub_neg {x r : ℚ} (hx : ∃ k : ℤ, x = k * 2 ^ (-1074 : ℤ))
    (hr : ∃ j : ℤ, r = j * 2 ^ (-1074 : ℤ)) (h : x - r < 0) : roundDouble (x - r) < 0 := by
  obtain ⟨k, hk⟩ := hx
  obtain ⟨j, hj⟩ := hr
  have hg : (0 : ℚ) < 2 ^ (-1074 : ℤ) := by positivity
  have hd : x - r = ((k - j : ℤ) : ℚ) * 2 ^ (-1074 : ℤ) := by
    rw [hk, hj]
    push_cast
    ring
  have hneg : k - j < 0 := by
    by_contra hcon
    have : (0 : ℚ) ≤ ((k - j : ℤ) : ℚ) := by exact_mod_cast not_lt.mp hcon
    have := mul_nonneg this hg.le
    linarith
  have hle : x - r ≤ -(2 : ℚ) ^ (-1074 : ℤ) := by
    rw [hd]
    have : ((k - j : ℤ) : ℚ) ≤ -1 := by exact_mod_cast (by omega : k - j ≤ -1)
    nlinarith
  rcases lt_or_eq_of_le (roundDouble_nonpos h.le) with hlt | heq
  · exact hlt
  · have habs := abs_le_of_roundDouble_eq_zero heq
    rw [abs_of_neg h] at habs
    have e : (2 : ℚ) ^ (-1075 : ℤ) = 2 ^ (-1074 : ℤ) / 2 := by
      rw [show (-1075 : ℤ) = -1074 + (-1) by norm_num, zpow_add₀ (by norm_num : (2 : ℚ) ≠ 0)]
      norm_num
    rw [e] at habs
    generalize (2 : ℚ) ^ (-1074 : ℤ) = g at hg hle habs
    linarith

/-! ## Lemmas on the collision test -/

theorem clamp_sq_le (c lo hi p : ℚ) (h1 : lo ≤ p) (h2 : p ≤ hi) :
    (c - max lo (min c hi)) * (c - max lo (min c hi)) ≤ (c - p) * (c - p) := by
  rcases le_total c lo with hc | hc
  · have hm : max lo (min c hi) = lo := max_eq_left (le_trans (min_le_left _ _) hc)
    rw [hm]
    nlinarith
  · rcases le_total c hi with hh | hh
    · have hm : max lo (min c hi) = c := by
        rw [min_eq_left hh, max_eq_right hc]
      rw [hm]
      nlinarith [mul_self_nonneg (c - p)]
    · have hm : max lo (min c hi) = hi := by
        rw [min_eq_right hh, max_eq_right (le_trans h1 h2)]
      rw [hm]
      nlinarith

theorem clamp_mem (c lo w : ℚ) (hw : 0 ≤ w) :
    lo ≤ max lo (min c (lo + w)) ∧ max lo (min c (lo + w)) ≤ lo + w := by
  refine ⟨le_max_left _ _, max_le (by linarith) (min_le_right _ _)⟩

theorem circleRect_iff (cx cy r rx ry rw rh : ℚ) :
    circleRect cx cy r rx ry rw rh = true ↔
      (cx - max rx (min cx (rx + rw))) * (cx - max rx (min cx (rx + rw))) +
        (cy - max ry (min cy (ry + rh))) * (cy - max ry (min cy (ry + rh))) ≤ r * r := by
  simp [circleRect]

/-- C2: for rw, rh >= 0, circleRect is true exactly when some point of the rectangle
[rx, rx + rw] x [ry, ry + rh] lies within distance r of (cx, cy). -/
theorem circleRect_standard (cx cy r rx ry rw rh : ℚ) (hw : 0 ≤ rw) (hh : 0 ≤ rh) :
    circleRect cx cy r rx ry rw rh = true ↔
      ∃ px py : ℚ, rx ≤ px ∧ px ≤ rx + rw ∧ ry ≤ py ∧ py ≤ ry + rh ∧
        (cx - px) ^ 2 + (cy - py) ^ 2 ≤ r ^ 2 := by
  rw [circleRect_iff]
  constructor
  · intro h
    obtain ⟨hx1, hx2⟩ := clamp_mem cx rx rw hw
    obtain ⟨hy1, hy2⟩ := clamp_mem cy ry rh hh
    refine ⟨_, _, hx1, hx2, hy1, hy2, ?_⟩
    simpa [pow_two] using h
  · rintro ⟨px, py, hx1, hx2, hy1, hy2, h⟩
    have hx := clamp_sq_le cx rx (rx + rw) px hx1 hx2
    have hy := clamp_sq_le cy ry (ry + rh) py hy1 hy2
    simp only [pow_two] at h
    linarith

theorem circleRect_standard_witness :
    (0 : ℚ) ≤ 60 ∧ (0 : ℚ) ≤ 100 ∧
      (circleRect 50 110 15 40 0 60 100 = true ↔
        ∃ px py : ℚ, 40 ≤ px ∧ px ≤ 40 + 60 ∧ 0 ≤ py ∧ py ≤ 0 + 100 ∧
          ((50 : ℚ) - px) ^ 2 + (110 - py) ^ 2 ≤ (15 : ℚ) ^ 2) :=
  ⟨by norm_num, by norm_num, circleRect_standard 50 110 15 40 0 60 100 (by norm_num) (by norm_num)⟩

/-! ## Frame lemmas for the tick -/

theorem checkPipes_eq (c : Canvas) (x y radius : ℚ) (ps : List Pipe) (s : State) :
    checkPipes c x y radius ps s =
      if ps.any (pipeHit c x y radius) then endGame s else s := by
  induction ps with
  | nil => simp [checkPipes]
  | cons p rest ih =>
    by_cases h : pipeHit c x y radius p = true
    · simp [checkPipes, h]
    · simp [checkPipes, h, ih]

theorem updateBird_gameState (s : State) : (updateBird s).gameState = s.gameState := by
  unfold updateBird
  split
  · rfl
  · split <;> rfl

theorem updateBird_bird_isSome (s : State) (b : Bird) (hb : s.bird = some b) :
    ∃ b1, (updateBird s).bird = some b1 := by
  unfold updateBird
  split
  · exact ⟨b, hb⟩
  · rw [hb]
    exact ⟨_, rfl⟩

theorem spawnStep_gameState (c : Canvas) (now u : ℚ) (s : State) :
    (spawnStep c now u s).gameState = s.gameState := by
  unfold spawnStep spawnPipe
  split <;> rfl

theorem spawnStep_bird (c : Canvas) (now u : ℚ) (s : State) :
    (spawnStep c now u s).bird = s.bird := by
  unfold spawnStep spawnPipe
  split <;> rfl

theorem updatePipes_gameState (c : Canvas) (now u : ℚ) (s : State) :
    (updatePipes c now u s).gameState = s.gameState := by
  unfold updatePipes
  split
  · rfl
  · exact spawnStep_gameState c now u s

theorem updatePipes_bird (c : Canvas) (now u : ℚ) (s : State) :
    (updatePipes c now u s).bird = s.bird := by
  unfold updatePipes
  split
  · rfl
  · exact spawnStep_bird c now u s

theorem checkCollisions_playing (c : Canvas) (s : State) (b : Bird)
    (hs : s.gameState = .playing) (hb : s.bird = some b) :
    (checkCollisions c s).gameState =
      if b.y + b.radius ≥ GROUND_Y c ∨ s.pipes.any (pipeHit c b.x b.y b.radius) = true
      then .gameover else .playing := by
  unfold checkCollisions
  rw [if_neg (by simp [hs]), hb]
  simp only [checkPipes_eq]
  by_cases hg : b.y + b.radius ≥ GROUND_Y c
  · simp [hg, endGame]
  · by_cases hp : s.pipes.any (pipeHit c b.x b.y b.radius) = true
    · simp [hg, hp, endGame]
    · simp [hg, hp, hs]

theorem gameLoop_gameState (c : Canvas) (now u : ℚ) (f : ℕ) (s : State)
    (hs : s.gameState = .playing) :
    (gameLoop c now u f s).gameState =
      (checkCollisions c (updatePipes c now u (updateBird s))).gameState := by
  unfold gameLoop
  rw [if_neg (by simp [hs])]

theorem updatePipes_pipes_nil (c : Canvas) (now u : ℚ) (s : State)
    (hp : s.pipes = []) (hn : ¬ now - s.lastPipeTime > PIPE_SPAWN_INTERVAL) :
    (updatePipes c now u s).pipes = [] := by
  unfold updatePipes
  split
  · exact hp
  · simp [spawnStep, hn, hp, pipeLoop]

theorem updateBird_pipes (s : State) : (updateBird s).pipes = s.pipes := by
  unfold updateBird
  split
  · rfl
  · split <;> rfl

theorem updateBird_lastPipeTime (s : State) :
    (updateBird s).lastPipeTime = s.lastPipeTime := by
  unfold updateBird
  split
  · rfl
  · split <;> rfl

/-- C1: on a playing state with a bird, one tick ends in gameover exactly when the bird
as updated in the tick reaches the ground line or circleRect holds for the top or
bottom rectangle of some pipe left after the tick; otherwise the state stays playing.
With no pipe left after the tick (in particular from an empty list without a spawn)
the tick ends the game exactly when the updated bird reaches the ground line. -/
theorem tick_gameover_iff (c : Canvas) (now u : ℚ) (f : ℕ) (s : State) (b : Bird)
    (hs : s.gameState = .playing) (hb : s.bird = some b) :
    ∃ b2, (updatePipes c now u (updateBird s)).bird = some b2 ∧
      (updateBird s).bird = some b2 ∧
      ((gameLoop c now u f s).gameState = .gameover ↔
        (b2.y + b2.radius ≥ GROUND_Y c ∨
          ∃ p ∈ (updatePipes c now u (updateBird s)).pipes,
            circleRect b2.x b2.y b2.radius p.x 0 p.width p.gapTop = true ∨
            circleRect b2.x b2.y b2.radius p.x p.gapBottom p.width
              (CANVAS_HEIGHT c - p.gapBottom) = true)) ∧
      ((gameLoop c now u f s).gameState ≠ .gameover →
        (gameLoop c now u f s).gameState = .playing) ∧
      ((updatePipes c now u (updateBird s)).pipes = [] →
        ((gameLoop c now u f s).gameState = .gameover ↔ b2.y + b2.radius ≥ GROUND_Y c)) ∧
      (s.pipes = [] → ¬ now - s.lastPipeTime > PIPE_SPAWN_INTERVAL →
        ((gameLoop c now u f s).gameState = .gameover ↔ b2.y + b2.radius ≥ GROUND_Y c)) := by
  obtain ⟨b2, hb2⟩ := updateBird_bird_isSome s b hb
  have hb3 : (updatePipes c now u (updateBird s)).bird = some b2 := by
    rw [updatePipes_bird, hb2]
  have hg : (updatePipes c now u (updateBird s)).gameState = .playing := by
    rw [updatePipes_gameState, updateBird_gameState, hs]
  have key := checkCollisions_playing c _ b2 hg hb3
  rw [← gameLoop_gameState c now u f s hs] at key
  have hany : ∀ ps : List Pipe, ps.any (pipeHit c b2.x b2.y b2.radius) = true ↔
      ∃ p ∈ ps, circleRect b2.x b2.y b2.radius p.x 0 p.width p.gapTop = true ∨
        circleRect b2.x b2.y b2.radius p.x p.gapBottom p.width
          (CANVAS_HEIGHT c - p.gapBottom) = true := by
    intro ps
    simp [List.any_eq_true, pipeHit]
  have main : (gameLoop c now u f s).gameState = .gameover ↔
      (b2.y + b2.radius ≥ GROUND_Y c ∨
        (updatePipes c now u (updateBird s)).pipes.any (pipeHit c b2.x b2.y b2.radius)
          = true) := by
    rw [key]
    split <;> simp_all
  have hnil : (updatePipes c now u (updateBird s)).pipes = [] →
      ((gameLoop c now u f s).gameState = .gameover ↔ b2.y + b2.radius ≥ GROUND_Y c) := by
    intro hnil
    rw [main, hnil]
    simp
  refine ⟨b2, hb3, hb2, ?_, ?_, hnil, ?_⟩
  · rw [main, hany]
  · intro hne
    rw [key] at hne ⊢
    split at hne
    · exact absurd rfl hne
    · rename_i h
      rw [if_neg h]
  · intro hp hn
    apply hnil
    apply updatePipes_pipes_nil
    · rw [updateBird_pipes, hp]
    · rw [updateBird_lastPipeTime]
      exact hn

/-! ## Physics integrator -/

theorem updateBird_playing (s : State) (b : Bird)
    (hs : s.gameState = .playing) (hb : s.bird = some b) :
    updateBird s =
      { s with
        bird := some (if roundDouble (roundDouble (b.y + roundDouble (b.velocityY + GRAVITY))
              - b.radius) < 0 then
            ({ x := b.x, y := b.radius, velocityY := 0, radius := b.radius } : Bird)
          else
            { x := b.x, y := roundDouble (b.y + roundDouble (b.velocityY + GRAVITY)),
              velocityY := roundDouble (b.velocityY + GRAVITY), radius := b.radius }) } := by
  unfold updateBird
  rw [if_neg (by simp [hs]), hb]

/-- Values of the double arithmetic of updateBird: the literal 0.35; three additions of it
give 1.0499999999999998; a bird at y = 22.65 with velocityY = -8 and radius 15 is clamped
(y = 15, velocityY = 0); a bird at y = 15.35 with velocityY = -0.7 lands on y = 15 exactly
and is not clamped (velocityY = -0.35). -/
theorem updateBird_double_values :
    GRAVITY = 3152519739159347 / 9007199254740992 ∧
      roundDouble (roundDouble (GRAVITY + GRAVITY) + GRAVITY) =
        roundDouble (10499999999999998 / 10000000000000000) ∧
      roundDouble (roundDouble (GRAVITY + GRAVITY) + GRAVITY) ≠ roundDouble (105 / 100) ∧
      (updateBird
        { gameState := .playing, score := 0,
          bird := some { x := 120, y := roundDouble (2265 / 100), velocityY := -8,
                         radius := 15 },
          pipes := [], lastPipeTime := 0, animationId := none }).bird =
        some { x := 120, y := 15, velocityY := 0, radius := 15 } ∧
      (updateBird
        { gameState := .playing, score := 0,
          bird := some { x := 120, y := roundDouble (1535 / 100),
                         velocityY := roundDouble (-7 / 10), radius := 15 },
          pipes := [], lastPipeTime := 0, animationId := none }).bird =
        some { x := 120, y := 15, velocityY := -GRAVITY, radius := 15 } := by
  decide!

/-- C3 (as stated, refuted): in clampSumState (y = -1.24, velocityY = 1.55, radius = 0.66)
the sum y + velocityY + GRAVITY - radius is 0, exactly and as the script would evaluate
it from left to right, so the condition of the claim holds, and updateBird clamps: velocityY becomes 0 and not velocityY + GRAVITY, because the script
tests the rounded position 0.6599999999999999 against the radius.  In jumpedState
(y = 300, velocityY = -8, no clamp) the new velocityY is the double nearest to
-8 + GRAVITY, which is not that sum. -/
theorem updateBird_clamps_despite_sum :
    clampSumState.gameState = .playing ∧
      clampSumState.bird = some clampSumBird ∧
      clampSumBird.y + clampSumBird.velocityY + GRAVITY - clampSumBird.radius ≥ 0 ∧
      roundDouble (roundDouble (roundDouble (clampSumBird.y + clampSumBird.velocityY)
        + GRAVITY) - clampSumBird.radius) ≥ 0 ∧
      (updateBird clampSumState).bird =
        some { x := 120, y := clampSumBird.radius, velocityY := 0,
               radius := clampSumBird.radius } ∧
      clampSumBird.velocityY + GRAVITY ≠ 0 ∧
      roundDouble (clampSumBird.velocityY + GRAVITY) ≠ 0 ∧
      jumpedState.gameState = .playing ∧
      jumpedState.bird = some { x := 120, y := 300, velocityY := -8, radius := 15 } ∧
      (300 : ℚ) + (-8) + GRAVITY - 15 ≥ 0 ∧
      (updateBird jumpedState).bird =
        some { x := 120, y := roundDouble (300 + roundDouble (-8 + GRAVITY)),
               velocityY := roundDouble (-8 + GRAVITY), radius := 15 } ∧
      roundDouble (-8 + GRAVITY) ≠ -8 + GRAVITY := by
  decide!

/-- C3 (amended): on a playing state whose bird has velocity v and position y, when the
ceiling clamp does not fire, that is when the position the script computes,
y + (v + GRAVITY) with each sum rounded to a double, minus the radius is not below 0,
updateBird sets the velocity to the double v + GRAVITY and the position to the double
y plus that new velocity, and changes nothing else. -/
theorem updateBird_integrates (s : State) (b : Bird)
    (hs : s.gameState = .playing) (hb : s.bird = some b)
    (hc : ¬ roundDouble (roundDouble (b.y + roundDouble (b.velocityY + GRAVITY)) - b.radius)
      < 0) :
    updateBird s =
      { s with
        bird := some { x := b.x, y := roundDouble (b.y + roundDouble (b.velocityY + GRAVITY)),
                       velocityY := roundDouble (b.velocityY + GRAVITY),
                       radius := b.radius } } := by
  rw [updateBird_playing s b hs hb, if_neg hc]

theorem updateBird_integrates_witness :
    ¬ roundDouble (roundDouble ((200 : ℚ) + roundDouble (0 + GRAVITY)) - 15) < 0 ∧
    updateBird
        { gameState := .playing, score := 0,
          bird := some { x := 120, y := 200, velocityY := 0, radius := 15 },
          pipes := [], lastPipeTime := 0, animationId := none } =
      { gameState := .playing, score := 0,
        bird := some { x := 120, y := roundDouble (200 + roundDouble (0 + GRAVITY)),
                       velocityY := roundDouble (0 + GRAVITY), radius := 15 },
        pipes := [], lastPipeTime := 0, animationId := none } ∧
    roundDouble ((200 : ℚ) + roundDouble (0 + GRAVITY)) = roundDouble (20035 / 100) ∧
    roundDouble ((0 : ℚ) + GRAVITY) = roundDouble (35 / 100) :=
  ⟨by decide!,
   updateBird_integrates
     { gameState := .playing, score := 0,
       bird := some { x := 120, y := 200, velocityY := 0, radius := 15 },
       pipes := [], lastPipeTime := 0, animationId := none }
     { x := 120, y := 200, velocityY := 0, radius := 15 } rfl rfl (by decide!),
   by decide!, by decide!⟩

/-- C4 (as stated, refuted): in nearCeilingState (y = 14.7, velocityY = -0.05, radius 15)
the sum y + velocityY + GRAVITY is below the radius, exactly and as the script would
evaluate it from left to right, so the condition of the claim holds, and updateBird does
not clamp: it tests the rounded position, which is 15, and leaves
velocityY at the double 0.3 instead of 0. -/
theorem updateBird_keeps_velocity_despite_sum :
    nearCeilingState.gameState = .playing ∧
      nearCeilingState.bird = some nearCeilingBird ∧
      nearCeilingBird.y + nearCeilingBird.velocityY + GRAVITY - nearCeilingBird.radius < 0 ∧
      roundDouble (roundDouble (roundDouble (nearCeilingBird.y + nearCeilingBird.velocityY)
        + GRAVITY) - nearCeilingBird.radius) < 0 ∧
      (updateBird nearCeilingState).bird =
        some { x := 120, y := 15, velocityY := roundDouble (3 / 10), radius := 15 } ∧
      roundDouble (3 / 10) ≠ 0 := by
  decide!

/-- C4 (amended): on a playing state with a bird, if the position the script computes
before the clamp, y + (velocityY + GRAVITY) with each sum rounded to a double, minus the
radius (rounded) is below 0, then updateBird leaves the bird at y = radius with
velocityY = 0; in every case the script's own test y - radius < 0 is false on the bird
after updateBird, and y - radius >= 0 holds exactly when the radius is a double. -/
theorem updateBird_ceiling (s : State) (b : Bird)
    (hs : s.gameState = .playing) (hb : s.bird = some b) :
    ∃ b1, (updateBird s).bird = some b1 ∧ b1.radius = b.radius ∧ b1.x = b.x ∧
      (roundDouble (roundDouble (b.y + roundDouble (b.velocityY + GRAVITY)) - b.radius) < 0 →
        b1.y = b1.radius ∧ b1.velocityY = 0) ∧
      ¬ roundDouble (b1.y - b1.radius) < 0 ∧
      (roundDouble b.radius = b.radius → b1.y - b1.radius ≥ 0) := by
  rw [updateBird_playing s b hs hb]
  by_cases h : roundDouble (roundDouble (b.y + roundDouble (b.velocityY + GRAVITY))
      - b.radius) < 0
  · rw [if_pos h]
    refine ⟨_, rfl, rfl, rfl, fun _ => ⟨rfl, rfl⟩, ?_, fun _ => ?_⟩
    · simp [roundDouble_zero]
    · simp
  · rw [if_neg h]
    refine ⟨_, rfl, rfl, rfl, fun h2 => absurd h2 h, h, fun hr => ?_⟩
    by_contra hneg
    apply h
    apply roundDouble_sub_neg (roundDouble_grid _)
    · obtain ⟨j, hj⟩ := roundDouble_grid b.radius
      exact ⟨j, by rw [← hj, hr]⟩
    · exact not_le.mp hneg

theorem updateBird_ceiling_witness :
    ∃ b1, (updateBird
        { gameState := .playing, score := 0,
          bird := some { x := 120, y := 10, velocityY := -8, radius := 15 },
          pipes := [], lastPipeTime := 0, animationId := none }).bird = some b1 ∧
      b1.radius = 15 ∧ b1.x = 120 ∧
      (roundDouble (roundDouble ((10 : ℚ) + roundDouble (-8 + GRAVITY)) - 15) < 0 →
        b1.y = b1.radius ∧ b1.velocityY = 0) ∧
      ¬ roundDouble (b1.y - b1.radius) < 0 ∧
      (roundDouble (15 : ℚ) = 15 → b1.y - b1.radius ≥ 0) :=
  updateBird_ceiling
    { gameState := .playing, score := 0,
      bird := some { x := 120, y := 10, velocityY := -8, radius := 15 },
      pipes := [], lastPipeTime := 0, animationId := none }
    { x := 120, y := 10, velocityY := -8, radius := 15 } rfl rfl

/-! ## The pipe loop -/

theorem pipeBody_fst (bird : Option Bird) (p : Pipe) (sc : ℕ) :
    (pipeBody bird p sc).1 = (pipeBody bird p 0).1 := by
  simp only [pipeBody]
  split <;> rfl

theorem pipeBody_snd (bird : Option Bird) (p : Pipe) (sc : ℕ) :
    (pipeBody bird p sc).2 =
      sc + if scoreTest bird { p with x := p.x - PIPE_SPEED } then 1 else 0 := by
  simp only [pipeBody]
  split <;> simp_all

theorem pipeLoop_fst (bird : Option Bird) (ps : List Pipe) (sc : ℕ) :
    (pipeLoop bird ps sc).1 = ps.map (fun p => (pipeBody bird p 0).1) := by
  induction ps generalizing sc with
  | nil => rfl
  | cons p rest ih =>
    simp only [pipeLoop, List.map_cons]
    rw [ih, pipeBody_fst]

theorem pipeLoop_snd (bird : Option Bird) (ps : List Pipe) (sc : ℕ) :
    (pipeLoop bird ps sc).2 =
      sc + ps.countP (fun p => scoreTest bird { p with x := p.x - PIPE_SPEED }) := by
  induction ps generalizing sc with
  | nil => simp [pipeLoop]
  | cons p rest ih =>
    simp only [pipeLoop]
    rw [ih, pipeBody_snd, List.countP_cons]
    split <;> simp_all [Nat.add_assoc, Nat.add_comm]

theorem pipeBody_scoredStep (b : Bird) (p : Pipe) :
    ScoredStep b.x b.radius p (pipeBody (some b) p 0).1 := by
  unfold ScoredStep pipeBody scoreTest
  cases hsc : p.scored
  · by_cases h : b.x - b.radius > p.x - PIPE_SPEED + p.width
    · simp [hsc, h]
    · simp [hsc, h]
  · simp [hsc]

theorem forall₂_map_of (R : Pipe → Pipe → Prop) (f : Pipe → Pipe) (h : ∀ p, R p (f p))
    (ps : List Pipe) : List.Forall₂ R ps (ps.map f) := by
  induction ps with
  | nil => exact List.Forall₂.nil
  | cons p rest ih => exact List.Forall₂.cons (h p) ih

theorem updatePipes_playing (c : Canvas) (now u : ℚ) (s : State)
    (hs : s.gameState = .playing) :
    updatePipes c now u s =
      { spawnStep c now u s with
        pipes := ((pipeLoop s.bird (spawnStep c now u s).pipes
          (spawnStep c now u s).score).1).filter (fun p => decide (p.x + p.width > 0)),
        score := (pipeLoop s.bird (spawnStep c now u s).pipes
          (spawnStep c now u s).score).2 } := by
  unfold updatePipes
  rw [if_neg (by simp [hs])]
  simp only [spawnStep_bird]

theorem spawnStep_score (c : Canvas) (now u : ℚ) (s : State) :
    (spawnStep c now u s).score = s.score := by
  unfold spawnStep spawnPipe
  split <;> rfl

theorem spawnStep_pipes (c : Canvas) (now u : ℚ) (s : State) :
    (spawnStep c now u s).pipes =
      if now - s.lastPipeTime > PIPE_SPAWN_INTERVAL then s.pipes ++ [newPipe c u]
      else s.pipes := by
  unfold spawnStep spawnPipe
  split <;> rfl

/-- C5: in updatePipes on a playing state with a bird, every pipe of the list (a pipe
spawned in the tick included) goes through the loop, which scrolls it by PIPE_SPEED; a pipe
unscored before the tick is scored by the loop exactly when
bird.x - bird.radius > (x - PIPE_SPEED) + width, a pipe already scored stays scored, and
the list kept by updatePipes is taken from the pipes the loop produced. -/
theorem scoring_trigger (c : Canvas) (now u : ℚ) (s : State) (b : Bird)
    (hs : s.gameState = .playing) (hb : s.bird = some b) :
    ∃ out : List Pipe,
      out = (pipeLoop (some b) (spawnStep c now u s).pipes s.score).1 ∧
      List.Forall₂
        (fun p q =>
          q.x = p.x - PIPE_SPEED ∧ q.width = p.width ∧
          (p.scored = false →
            (q.scored = true ↔ b.x - b.radius > (p.x - PIPE_SPEED) + p.width)) ∧
          (p.scored = true → q.scored = true))
        (spawnStep c now u s).pipes out ∧
      (updatePipes c now u s).pipes = out.filter (fun q => decide (q.x + q.width > 0)) ∧
      (∀ q ∈ (updatePipes c now u s).pipes, q ∈ out) := by
  refine ⟨_, rfl, ?_, ?_, ?_⟩
  · rw [pipeLoop_fst]
    apply forall₂_map_of
    intro p
    obtain ⟨h1, h2, _, _, h5, h6⟩ := pipeBody_scoredStep b p
    exact ⟨h1, h2, h5, h6⟩
  · rw [updatePipes_playing c now u s hs, hb, spawnStep_score]
  · rw [updatePipes_playing c now u s hs, hb, spawnStep_score]
    intro q hq
    exact (List.mem_filter.mp hq).1

theorem scoring_trigger_witness :
    sampleState.gameState = .playing ∧ sampleState.bird = some sampleBird ∧
    ∃ out : List Pipe,
      out = (pipeLoop (some sampleBird)
        (spawnStep sampleCanvas 2000 (1 / 2) sampleState).pipes sampleState.score).1 ∧
      List.Forall₂
        (fun p q =>
          q.x = p.x - PIPE_SPEED ∧ q.width = p.width ∧
          (p.scored = false →
            (q.scored = true ↔
              sampleBird.x - sampleBird.radius > (p.x - PIPE_SPEED) + p.width)) ∧
          (p.scored = true → q.scored = true))
        (spawnStep sampleCanvas 2000 (1 / 2) sampleState).pipes out ∧
      (updatePipes sampleCanvas 2000 (1 / 2) sampleState).pipes =
        out.filter (fun q => decide (q.x + q.width > 0)) ∧
      (∀ q ∈ (updatePipes sampleCanvas 2000 (1 / 2) sampleState).pipes, q ∈ out) :=
  ⟨rfl, rfl, scoring_trigger sampleCanvas 2000 (1 / 2) sampleState sampleBird rfl rfl⟩

theorem tick_gameover_iff_witness :
    sampleState.gameState = .playing ∧ sampleState.bird = some sampleBird ∧
    ∃ b2, (updatePipes sampleCanvas 0 0 (updateBird sampleState)).bird = some b2 ∧
      (updateBird sampleState).bird = some b2 ∧
      ((gameLoop sampleCanvas 0 0 2 sampleState).gameState = .gameover ↔
        (b2.y + b2.radius ≥ GROUND_Y sampleCanvas ∨
          ∃ p ∈ (updatePipes sampleCanvas 0 0 (updateBird sampleState)).pipes,
            circleRect b2.x b2.y b2.radius p.x 0 p.width p.gapTop = true ∨
            circleRect b2.x b2.y b2.radius p.x p.gapBottom p.width
              (CANVAS_HEIGHT sampleCanvas - p.gapBottom) = true)) ∧
      ((gameLoop sampleCanvas 0 0 2 sampleState).gameState ≠ .gameover →
        (gameLoop sampleCanvas 0 0 2 sampleState).gameState = .playing) ∧
      ((updatePipes sampleCanvas 0 0 (updateBird sampleState)).pipes = [] →
        ((gameLoop sampleCanvas 0 0 2 sampleState).gameState = .gameover ↔
          b2.y + b2.radius ≥ GROUND_Y sampleCanvas)) ∧
      (sampleState.pipes = [] → ¬ (0 : ℚ) - sampleState.lastPipeTime > PIPE_SPAWN_INTERVAL →
        ((gameLoop sampleCanvas 0 0 2 sampleState).gameState = .gameover ↔
          b2.y + b2.radius ≥ GROUND_Y sampleCanvas)) :=
  ⟨rfl, rfl, tick_gameover_iff sampleCanvas 0 0 2 sampleState sampleBird rfl rfl⟩

/-! ## Score -/

theorem pipeBody_flip (bird : Option Bird) (p : Pipe) :
    (!p.scored && (pipeBody bird p 0).1.scored) =
      scoreTest bird { p with x := p.x - PIPE_SPEED } := by
  simp only [pipeBody]
  split
  · rename_i h
    rw [h]
    simp only [scoreTest, Bool.and_eq_true, Bool.not_eq_true'] at h
    simp [h.1]
  · rename_i h
    simp only [Bool.not_eq_true] at h
    rw [h]
    cases p.scored <;> rfl

theorem countP_zip_map (f : Pipe → Pipe) (g : Pipe × Pipe → Bool) (ps : List Pipe) :
    (ps.zip (ps.map f)).countP g = ps.countP (fun p => g (p, f p)) := by
  induction ps with
  | nil => rfl
  | cons p rest ih =>
    simp only [List.map_cons, List.zip_cons_cons, List.countP_cons, ih]

theorem updatePipes_score (c : Canvas) (now u : ℚ) (s : State)
    (hs : s.gameState = .playing) :
    (updatePipes c now u s).score =
      s.score + (spawnStep c now u s).pipes.countP
        (fun p => scoreTest s.bird { p with x := p.x - PIPE_SPEED }) := by
  rw [updatePipes_playing c now u s hs]
  simp only
  rw [pipeLoop_snd, spawnStep_score]

theorem updatePipes_score_le (c : Canvas) (now u : ℚ) (s : State) :
    s.score ≤ (updatePipes c now u s).score := by
  by_cases hs : s.gameState = .playing
  · rw [updatePipes_score c now u s hs]
    exact Nat.le_add_right _ _
  · unfold updatePipes
    rw [if_pos hs]

theorem updateBird_score (s : State) : (updateBird s).score = s.score := by
  unfold updateBird
  split
  · rfl
  · split <;> rfl

theorem jumpBird_score (s : State) : (jumpBird s).score = s.score := by
  unfold jumpBird
  split <;> rfl

theorem checkCollisions_score (c : Canvas) (s : State) :
    (checkCollisions c s).score = s.score := by
  unfold checkCollisions
  split
  · rfl
  · split
    · rfl
    · split
      · rfl
      · rw [checkPipes_eq]
        split <;> rfl

theorem gameLoop_score_le (c : Canvas) (now u : ℚ) (f : ℕ) (s : State) :
    s.score ≤ (gameLoop c now u f s).score := by
  unfold gameLoop
  split
  · exact Nat.le_refl _
  · simp only
    rw [checkCollisions_score]
    calc s.score = (updateBird s).score := (updateBird_score s).symm
      _ ≤ (updatePipes c now u (updateBird s)).score := updatePipes_score_le c now u _

theorem run_score_le (c : Canvas) (evs : List Input) (s : State) :
    s.score ≤ (run c evs s).score := by
  induction evs generalizing s with
  | nil => exact Nat.le_refl _
  | cons i rest ih =>
    simp only [run]
    refine Nat.le_trans ?_ (ih _)
    cases i with
    | tick now u f => exact gameLoop_score_le c now u f s
    | jump => exact Nat.le_of_eq (jumpBird_score s).symm

/-- C6: on a playing state updatePipes adds to the score exactly the number of pipes whose
scored flag went from false to true in the loop of that tick; updateBird, jumpBird and
checkCollisions leave the score as it is; so along any sequence of frames and jumps the
score never decreases. -/
theorem score_monotone (c : Canvas) (now u : ℚ) (s : State)
    (hs : s.gameState = .playing) :
    (updatePipes c now u s).score =
        s.score +
          ((spawnStep c now u s).pipes.zip
            (pipeLoop s.bird (spawnStep c now u s).pipes s.score).1).countP
            (fun pq => !pq.1.scored && pq.2.scored) ∧
      (∀ t : State, (updateBird t).score = t.score ∧ (jumpBird t).score = t.score ∧
        (checkCollisions c t).score = t.score) ∧
      (∀ (evs : List Input) (t : State), t.score ≤ (run c evs t).score) := by
  refine ⟨?_, fun t => ⟨updateBird_score t, jumpBird_score t, checkCollisions_score c t⟩,
    fun evs t => run_score_le c evs t⟩
  rw [updatePipes_score c now u s hs, pipeLoop_fst, countP_zip_map]
  congr 2
  funext p
  exact (pipeBody_flip s.bird p).symm

theorem score_monotone_witness :
    sampleState.gameState = .playing ∧
    ((updatePipes sampleCanvas 2000 (1 / 2) sampleState).score =
        sampleState.score +
          ((spawnStep sampleCanvas 2000 (1 / 2) sampleState).pipes.zip
            (pipeLoop sampleState.bird (spawnStep sampleCanvas 2000 (1 / 2) sampleState).pipes
              sampleState.score).1).countP
            (fun pq => !pq.1.scored && pq.2.scored) ∧
      (∀ t : State, (updateBird t).score = t.score ∧ (jumpBird t).score = t.score ∧
        (checkCollisions sampleCanvas t).score = t.score) ∧
      (∀ (evs : List Input) (t : State), t.score ≤ (run sampleCanvas evs t).score)) ∧
    (updatePipes sampleCanvas 2000 (1 / 2) sampleState).score = 2 :=
  ⟨rfl, score_monotone sampleCanvas 2000 (1 / 2) sampleState rfl, by
    norm_num [updatePipes, sampleState, samplePipes, sampleBird, spawnStep, spawnPipe,
      newPipe, pipeLoop, pipeBody, scoreTest, PIPE_SPEED, PIPE_SPAWN_INTERVAL,
      CANVAS_WIDTH, sampleCanvas, PIPE_WIDTH]⟩

/-! ## Pruning -/

theorem pipeBody_geom (bird : Option Bird) (p : Pipe) :
    (pipeBody bird p 0).1.x = p.x - PIPE_SPEED ∧ (pipeBody bird p 0).1.width = p.width ∧
      (pipeBody bird p 0).1.gapTop = p.gapTop ∧
      (pipeBody bird p 0).1.gapBottom = p.gapBottom := by
  simp only [pipeBody]
  split <;> exact ⟨rfl, rfl, rfl, rfl⟩

theorem updatePipes_pipes (c : Canvas) (now u : ℚ) (s : State)
    (hs : s.gameState = .playing) :
    (updatePipes c now u s).pipes =
      ((pipeLoop s.bird (spawnStep c now u s).pipes s.score).1).filter
        (fun q => decide (q.x + q.width > 0)) := by
  rw [updatePipes_playing c now u s hs, spawnStep_score]

/-- C7: on a playing state the pipe list after updatePipes is the list of the scrolled
pipes (each pipe of the list, one spawned in the tick included, with x lowered by
PIPE_SPEED and its width and gap kept), in the same order, restricted to those with
x + width > 0: a scrolled pipe is missing from the result exactly when x + width <= 0. -/
theorem pruning (c : Canvas) (now u : ℚ) (s : State) (hs : s.gameState = .playing) :
    ∃ out : List Pipe,
      out = (pipeLoop s.bird (spawnStep c now u s).pipes s.score).1 ∧
      (spawnStep c now u s).pipes =
        (if now - s.lastPipeTime > PIPE_SPAWN_INTERVAL then s.pipes ++ [newPipe c u]
         else s.pipes) ∧
      List.Forall₂
        (fun p q => q.x = p.x - PIPE_SPEED ∧ q.width = p.width ∧ q.gapTop = p.gapTop ∧
          q.gapBottom = p.gapBottom)
        (spawnStep c now u s).pipes out ∧
      (updatePipes c now u s).pipes = out.filter (fun q => decide (q.x + q.width > 0)) ∧
      List.Sublist (updatePipes c now u s).pipes out ∧
      (∀ q ∈ out, q ∉ (updatePipes c now u s).pipes ↔ q.x + q.width ≤ 0) := by
  refine ⟨_, rfl, spawnStep_pipes c now u s, ?_, updatePipes_pipes c now u s hs, ?_, ?_⟩
  · rw [pipeLoop_fst]
    exact forall₂_map_of _ _ (pipeBody_geom s.bird) _
  · rw [updatePipes_pipes c now u s hs]
    exact List.filter_sublist _
  · intro q hq
    rw [updatePipes_pipes c now u s hs, List.mem_filter]
    simp [hq]

theorem pruning_witness :
    sampleState.gameState = .playing ∧
    (∃ out : List Pipe,
      out = (pipeLoop sampleState.bird (spawnStep sampleCanvas 0 0 sampleState).pipes
        sampleState.score).1 ∧
      (spawnStep sampleCanvas 0 0 sampleState).pipes =
        (if (0 : ℚ) - sampleState.lastPipeTime > PIPE_SPAWN_INTERVAL then
          sampleState.pipes ++ [newPipe sampleCanvas 0]
         else sampleState.pipes) ∧
      List.Forall₂
        (fun p q => q.x = p.x - PIPE_SPEED ∧ q.width = p.width ∧ q.gapTop = p.gapTop ∧
          q.gapBottom = p.gapBottom)
        (spawnStep sampleCanvas 0 0 sampleState).pipes out ∧
      (updatePipes sampleCanvas 0 0 sampleState).pipes =
        out.filter (fun q => decide (q.x + q.width > 0)) ∧
      List.Sublist (updatePipes sampleCanvas 0 0 sampleState).pipes out ∧
      (∀ q ∈ out, q ∉ (updatePipes sampleCanvas 0 0 sampleState).pipes ↔
        q.x + q.width ≤ 0)) ∧
    sampleState.pipes =
      [ { x := -61, width := 60, gapTop := 100, gapBottom := 240, scored := true },
        { x := 100, width := 60, gapTop := 150, gapBottom := 290, scored := false },
        { x := 40, width := 60, gapTop := 200, gapBottom := 340, scored := false } ] ∧
    (updatePipes sampleCanvas 0 0 sampleState).pipes =
      [ { x := 97, width := 60, gapTop := 150, gapBottom := 290, scored := false },
        { x := 37, width := 60, gapTop := 200, gapBottom := 340, scored := true } ] :=
  ⟨rfl, pruning sampleCanvas 0 0 sampleState rfl, rfl, by
    norm_num [updatePipes, sampleState, samplePipes, sampleBird, spawnStep, pipeLoop,
      pipeBody, scoreTest, PIPE_SPEED, PIPE_SPAWN_INTERVAL, List.filter]⟩

/-! ## Gap invariant -/

theorem canvas_consts (c : Canvas) (n : ℕ) (hn : CANVAS_HEIGHT c = n) (h380 : 380 ≤ n) :
    PIPE_MAX_TOP c = ((n - 300 : ℕ) : ℚ) ∧
      PIPE_MAX_TOP c - PIPE_MIN_TOP = ((n - 380 : ℕ) : ℚ) ∧
      PIPE_MAX_TOP c + PIPE_GAP = ((n - 160 : ℕ) : ℚ) := by
  simp only [PIPE_MAX_TOP, GROUND_Y, GROUND_Y_OFFSET, PIPE_GAP, PIPE_MIN_TOP, hn]
  rw [Nat.cast_sub (by omega), Nat.cast_sub (by omega), Nat.cast_sub (by omega)]
  push_cast
  refine ⟨by ring, by ring, by ring⟩

theorem gapBottom_facts (c : Canvas) (n : ℕ) (hn : CANVAS_HEIGHT c = n) (h380 : 380 ≤ n)
    (hbig : n < 2 ^ 32) (g : ℚ) (h1 : PIPE_MIN_TOP ≤ g) (h2 : g ≤ PIPE_MAX_TOP c) :
    g < roundDouble (g + PIPE_GAP) ∧
      roundDouble (g + PIPE_GAP) ≤ PIPE_MAX_TOP c + PIPE_GAP ∧
      |roundDouble (g + PIPE_GAP) - g - PIPE_GAP| ≤ (g + PIPE_GAP) * 2 ^ (-53 : ℤ) := by
  obtain ⟨_, _, c3⟩ := canvas_consts c n hn h380
  have hg80 : (80 : ℚ) ≤ g := h1
  have hone : (1 : ℚ) ≤ g + PIPE_GAP := by
    simp only [PIPE_GAP]
    linarith
  have herr := abs_roundDouble_sub_le_of_one_le hone
  have hup : roundDouble (g + PIPE_GAP) ≤ PIPE_MAX_TOP c + PIPE_GAP := by
    have hm := roundDouble_mono_nonneg (by linarith : (0 : ℚ) ≤ g + PIPE_GAP)
      (by linarith : g + PIPE_GAP ≤ PIPE_MAX_TOP c + PIPE_GAP)
    rw [c3, roundDouble_natCast _ (by omega)] at hm
    rw [c3]
    exact hm
  have hsmall : (g + PIPE_GAP) * 2 ^ (-53 : ℤ) < 1 := by
    have hle : g + PIPE_GAP ≤ ((n - 160 : ℕ) : ℚ) := by
      rw [← c3]
      linarith
    have hn2 : ((n - 160 : ℕ) : ℚ) < ((2 ^ 32 : ℕ) : ℚ) := by
      exact_mod_cast (by omega : n - 160 < 2 ^ 32)
    have h32 : ((2 ^ 32 : ℕ) : ℚ) = 2 ^ (32 : ℤ) := by norm_num
    rw [h32] at hn2
    have hp : (0 : ℚ) < 2 ^ (-53 : ℤ) := by positivity
    calc (g + PIPE_GAP) * 2 ^ (-53 : ℤ) < 2 ^ (32 : ℤ) * 2 ^ (-53 : ℤ) :=
          mul_lt_mul_of_pos_right (lt_of_le_of_lt hle hn2) hp
      _ < 1 := by norm_num
  have e : roundDouble (g + PIPE_GAP) - g - PIPE_GAP =
      roundDouble (g + PIPE_GAP) - (g + PIPE_GAP) := by ring
  refine ⟨?_, hup, ?_⟩
  · have h3 := (abs_le.mp herr).1
    simp only [PIPE_GAP] at h3 hsmall ⊢
    linarith
  · rw [e]
    exact herr

theorem newPipe_bounds (c : Canvas) (n : ℕ) (hn : CANVAS_HEIGHT c = n) (h380 : 380 ≤ n)
    (hbig : n < 2 ^ 32) (u : ℚ) (hu0 : 0 ≤ u) (hu1 : u < 1) :
    PIPE_MIN_TOP ≤ (newPipe c u).gapTop ∧ (newPipe c u).gapTop ≤ PIPE_MAX_TOP c ∧
      (newPipe c u).gapBottom = roundDouble ((newPipe c u).gapTop + PIPE_GAP) := by
  obtain ⟨c1, c2, _⟩ := canvas_consts c n hn h380
  simp only [newPipe]
  have hD : roundDouble (PIPE_MAX_TOP c - PIPE_MIN_TOP) = PIPE_MAX_TOP c - PIPE_MIN_TOP := by
    rw [c2]
    exact roundDouble_natCast _ (by omega)
  have hD0 : (0 : ℚ) ≤ PIPE_MAX_TOP c - PIPE_MIN_TOP := by
    rw [c2]
    exact Nat.cast_nonneg _
  rw [hD]
  have hw0 : 0 ≤ roundDouble (u * (PIPE_MAX_TOP c - PIPE_MIN_TOP)) :=
    roundDouble_nonneg (mul_nonneg hu0 hD0)
  have hw1 : roundDouble (u * (PIPE_MAX_TOP c - PIPE_MIN_TOP)) ≤
      PIPE_MAX_TOP c - PIPE_MIN_TOP := by
    have hm := roundDouble_mono_nonneg (mul_nonneg hu0 hD0)
      (by nlinarith : u * (PIPE_MAX_TOP c - PIPE_MIN_TOP) ≤ PIPE_MAX_TOP c - PIPE_MIN_TOP)
    rwa [hD] at hm
  have h80 : roundDouble PIPE_MIN_TOP = PIPE_MIN_TOP := by
    have := roundDouble_natCast 80 (by norm_num)
    simpa [PIPE_MIN_TOP] using this
  have hmin0 : (0 : ℚ) ≤ PIPE_MIN_TOP := by norm_num [PIPE_MIN_TOP]
  refine ⟨?_, ?_, trivial⟩
  · have hm := roundDouble_mono_nonneg hmin0
      (by linarith : PIPE_MIN_TOP ≤
        PIPE_MIN_TOP + roundDouble (u * (PIPE_MAX_TOP c - PIPE_MIN_TOP)))
    rwa [h80] at hm
  · have hm := roundDouble_mono_nonneg
      (by linarith : (0 : ℚ) ≤
        PIPE_MIN_TOP + roundDouble (u * (PIPE_MAX_TOP c - PIPE_MIN_TOP)))
      (by linarith : PIPE_MIN_TOP + roundDouble (u * (PIPE_MAX_TOP c - PIPE_MIN_TOP)) ≤
        PIPE_MAX_TOP c)
    have hM : roundDouble (PIPE_MAX_TOP c) = PIPE_MAX_TOP c := by
      rw [c1]
      exact roundDouble_natCast _ (by omega)
    rwa [hM] at hm

theorem updatePipes_pipes_forall (c : Canvas) (now u : ℚ) (s : State) (P : Pipe → Prop)
    (hbody : ∀ (bird : Option Bird) (p : Pipe), P p → P (pipeBody bird p 0).1)
    (hnew : P (newPipe c u)) (h : ∀ p ∈ s.pipes, P p) :
    ∀ p ∈ (updatePipes c now u s).pipes, P p := by
  by_cases hs : s.gameState = .playing
  · rw [updatePipes_pipes c now u s hs, pipeLoop_fst, spawnStep_pipes]
    intro q hq
    obtain ⟨hq1, _⟩ := List.mem_filter.mp hq
    obtain ⟨p, hp, rfl⟩ := List.mem_map.mp hq1
    apply hbody
    split at hp
    · rcases List.mem_append.mp hp with h1 | h1
      · exact h p h1
      · rw [List.mem_singleton.mp h1]
        exact hnew
    · exact h p hp
  · unfold updatePipes
    rw [if_pos hs]
    exact h

theorem checkCollisions_pipes (c : Canvas) (s : State) :
    (checkCollisions c s).pipes = s.pipes := by
  unfold checkCollisions
  split
  · rfl
  · split
    · rfl
    · split
      · rfl
      · rw [checkPipes_eq]
        split <;> rfl

theorem jumpBird_pipes (s : State) : (jumpBird s).pipes = s.pipes := by
  unfold jumpBird
  split <;> rfl

theorem gameLoop_pipes_forall (c : Canvas) (now u : ℚ) (f : ℕ) (s : State) (P : Pipe → Prop)
    (hbody : ∀ (bird : Option Bird) (p : Pipe), P p → P (pipeBody bird p 0).1)
    (hnew : P (newPipe c u)) (h : ∀ p ∈ s.pipes, P p) :
    ∀ p ∈ (gameLoop c now u f s).pipes, P p := by
  unfold gameLoop
  split
  · exact h
  · simp only
    rw [checkCollisions_pipes]
    apply updatePipes_pipes_forall c now u _ P hbody hnew
    rw [updateBird_pipes]
    exact h

theorem reachable_gap (c : Canvas) (n : ℕ) (hn : CANVAS_HEIGHT c = n) (h380 : 380 ≤ n)
    (hbig : n < 2 ^ 32) (s : State) (hr : Reachable c s) :
    ∀ p ∈ s.pipes, PIPE_MIN_TOP ≤ p.gapTop ∧ p.gapTop ≤ PIPE_MAX_TOP c ∧
      p.gapBottom = roundDouble (p.gapTop + PIPE_GAP) := by
  induction hr with
  | start s0 now f =>
    intro p hp
    simp [startGame] at hp
  | tick s now u f _ hu0 hu1 ih =>
    apply gameLoop_pipes_forall c now u f s _ _ (newPipe_bounds c n hn h380 hbig u hu0 hu1) ih
    intro bird p hp
    obtain ⟨_, _, h3, h4⟩ := pipeBody_geom bird p
    rw [h3, h4]
    exact hp
  | jump s _ ih =>
    rw [jumpBird_pipes]
    exact ih

/-- C8 (as stated, refuted): on the 400 x 600 canvas the draw 0.7417869892607294 gives a
pipe with gapTop = 243.19313763736048 and gapBottom = 383.19313763736045 (the doubles of
these literals), so gapBottom - gapTop is not PIPE_GAP; the pipe is in the list of the
state reached from startGame by the frame that spawns it. -/
theorem newPipe_gap_not_exact :
    (0 : ℚ) ≤ unluckyDraw ∧ unluckyDraw < 1 ∧ PIPE_MIN_TOP ≤ PIPE_MAX_TOP sampleCanvas ∧
      (newPipe sampleCanvas unluckyDraw).gapTop =
        roundDouble (24319313763736048 / 100000000000000) ∧
      (newPipe sampleCanvas unluckyDraw).gapBottom =
        roundDouble (38319313763736045 / 100000000000000) ∧
      (newPipe sampleCanvas unluckyDraw).gapBottom - (newPipe sampleCanvas unluckyDraw).gapTop
        ≠ PIPE_GAP ∧
      (newPipe sampleCanvas unluckyDraw).gapBottom - (newPipe sampleCanvas unluckyDraw).gapTop
        < PIPE_GAP ∧
      (gameLoop sampleCanvas 2000 unluckyDraw 2
          (startGame sampleCanvas 0 1 (initialState sampleCanvas))).pipes =
        [ { x := 397, width := 60,
            gapTop := roundDouble (24319313763736048 / 100000000000000),
            gapBottom := roundDouble (38319313763736045 / 100000000000000),
            scored := false } ] := by
  decide!

/-- C8 (amended): when the canvas height is an integer n with 380 <= n < 2^32 (so that
PIPE_MIN_TOP <= PIPE_MAX_TOP), for every draw u in [0, 1) the pipe made by spawnPipe has
PIPE_MIN_TOP <= gapTop <= PIPE_MAX_TOP, its gapBottom is the double nearest to
gapTop + PIPE_GAP, so gapBottom - gapTop differs from PIPE_GAP by at most
(gapTop + PIPE_GAP) * 2^-53, and gapTop + PIPE_GAP <= GROUND_Y - 80, gapBottom <=
GROUND_Y - 80; every pipe in the list of a state reachable from startGame has
0 <= gapTop < gapBottom <= CANVAS_HEIGHT and the same relation between gapBottom and
gapTop. -/
theorem gap_invariant (c : Canvas) (n : ℕ) (hn : CANVAS_HEIGHT c = n) (h380 : 380 ≤ n)
    (hbig : n < 2 ^ 32) (u : ℚ) (hu0 : 0 ≤ u) (hu1 : u < 1) (s : State)
    (hr : Reachable c s) :
    (PIPE_MIN_TOP ≤ PIPE_MAX_TOP c ↔ CANVAS_HEIGHT c ≥ 380) ∧
      PIPE_MIN_TOP ≤ PIPE_MAX_TOP c ∧
      (spawnPipe c u s).pipes = s.pipes ++ [newPipe c u] ∧
      (PIPE_MIN_TOP ≤ (newPipe c u).gapTop ∧ (newPipe c u).gapTop ≤ PIPE_MAX_TOP c ∧
        (newPipe c u).gapBottom = roundDouble ((newPipe c u).gapTop + PIPE_GAP) ∧
        |(newPipe c u).gapBottom - (newPipe c u).gapTop - PIPE_GAP| ≤
          ((newPipe c u).gapTop + PIPE_GAP) * 2 ^ (-53 : ℤ) ∧
        (newPipe c u).gapTop + PIPE_GAP ≤ GROUND_Y c - 80 ∧
        (newPipe c u).gapBottom ≤ GROUND_Y c - 80) ∧
      (∀ p ∈ s.pipes, 0 ≤ p.gapTop ∧ p.gapTop < p.gapBottom ∧
        p.gapBottom ≤ CANVAS_HEIGHT c ∧
        p.gapBottom = roundDouble (p.gapTop + PIPE_GAP) ∧
        |p.gapBottom - p.gapTop - PIPE_GAP| ≤ (p.gapTop + PIPE_GAP) * 2 ^ (-53 : ℤ)) := by
  have hc : PIPE_MIN_TOP ≤ PIPE_MAX_TOP c ↔ CANVAS_HEIGHT c ≥ 380 := by
    simp only [PIPE_MIN_TOP, PIPE_MAX_TOP, GROUND_Y, GROUND_Y_OFFSET, PIPE_GAP]
    constructor <;> intro h1 <;> linarith
  have hH : CANVAS_HEIGHT c ≥ 380 := by
    rw [hn]
    exact_mod_cast h380
  have hgy : PIPE_MAX_TOP c + PIPE_GAP = GROUND_Y c - 80 := by
    simp only [PIPE_MAX_TOP, PIPE_GAP]
    ring
  have hgc : GROUND_Y c - 80 ≤ CANVAS_HEIGHT c := by
    simp only [GROUND_Y, GROUND_Y_OFFSET]
    linarith
  have key : ∀ p : Pipe, PIPE_MIN_TOP ≤ p.gapTop → p.gapTop ≤ PIPE_MAX_TOP c →
      p.gapBottom = roundDouble (p.gapTop + PIPE_GAP) →
      p.gapTop < p.gapBottom ∧ p.gapBottom ≤ GROUND_Y c - 80 ∧
        |p.gapBottom - p.gapTop - PIPE_GAP| ≤ (p.gapTop + PIPE_GAP) * 2 ^ (-53 : ℤ) := by
    intro p h1 h2 h3
    obtain ⟨f1, f2, f3⟩ := gapBottom_facts c n hn h380 hbig p.gapTop h1 h2
    rw [h3]
    exact ⟨f1, by rw [← hgy]; exact f2, f3⟩
  obtain ⟨n1, n2, n3⟩ := newPipe_bounds c n hn h380 hbig u hu0 hu1
  obtain ⟨k1, k2, k3⟩ := key (newPipe c u) n1 n2 n3
  refine ⟨hc, hc.mpr hH, rfl, ⟨n1, n2, n3, k3, ?_, k2⟩, ?_⟩
  · rw [← hgy]
    linarith
  · intro p hp
    obtain ⟨g1, g2, g3⟩ := reachable_gap c n hn h380 hbig s hr p hp
    obtain ⟨q1, q2, q3⟩ := key p g1 g2 g3
    have h80 : (0 : ℚ) ≤ PIPE_MIN_TOP := by norm_num [PIPE_MIN_TOP]
    exact ⟨le_trans h80 g1, q1, le_trans q2 hgc, g3, q3⟩

theorem gap_invariant_witness :
    CANVAS_HEIGHT sampleCanvas = (600 : ℕ) ∧ 380 ≤ 600 ∧ 600 < 2 ^ 32 ∧
    (0 : ℚ) ≤ 1 / 2 ∧ (1 / 2 : ℚ) < 1 ∧
    Reachable sampleCanvas
      (gameLoop sampleCanvas 2000 (1 / 2) 2
        (startGame sampleCanvas 0 1 (initialState sampleCanvas))) ∧
    ((PIPE_MIN_TOP ≤ PIPE_MAX_TOP sampleCanvas ↔ CANVAS_HEIGHT sampleCanvas ≥ 380) ∧
      PIPE_MIN_TOP ≤ PIPE_MAX_TOP sampleCanvas ∧
      (spawnPipe sampleCanvas (1 / 2)
          (gameLoop sampleCanvas 2000 (1 / 2) 2
            (startGame sampleCanvas 0 1 (initialState sampleCanvas)))).pipes =
        (gameLoop sampleCanvas 2000 (1 / 2) 2
          (startGame sampleCanvas 0 1 (initialState sampleCanvas))).pipes ++
          [newPipe sampleCanvas (1 / 2)] ∧
      (PIPE_MIN_TOP ≤ (newPipe sampleCanvas (1 / 2)).gapTop ∧
        (newPipe sampleCanvas (1 / 2)).gapTop ≤ PIPE_MAX_TOP sampleCanvas ∧
        (newPipe sampleCanvas (1 / 2)).gapBottom =
          roundDouble ((newPipe sampleCanvas (1 / 2)).gapTop + PIPE_GAP) ∧
        |(newPipe sampleCanvas (1 / 2)).gapBottom - (newPipe sampleCanvas (1 / 2)).gapTop -
            PIPE_GAP| ≤ ((newPipe sampleCanvas (1 / 2)).gapTop + PIPE_GAP) * 2 ^ (-53 : ℤ) ∧
        (newPipe sampleCanvas (1 / 2)).gapTop + PIPE_GAP ≤ GROUND_Y sampleCanvas - 80 ∧
        (newPipe sampleCanvas (1 / 2)).gapBottom ≤ GROUND_Y sampleCanvas - 80) ∧
      (∀ p ∈ (gameLoop sampleCanvas 2000 (1 / 2) 2
            (startGame sampleCanvas 0 1 (initialState sampleCanvas))).pipes,
        0 ≤ p.gapTop ∧ p.gapTop < p.gapBottom ∧
        p.gapBottom ≤ CANVAS_HEIGHT sampleCanvas ∧
        p.gapBottom = roundDouble (p.gapTop + PIPE_GAP) ∧
        |p.gapBottom - p.gapTop - PIPE_GAP| ≤ (p.gapTop + PIPE_GAP) * 2 ^ (-53 : ℤ))) ∧
    (gameLoop sampleCanvas 2000 (1 / 2) 2
        (startGame sampleCanvas 0 1 (initialState sampleCanvas))).pipes =
      [ { x := 397, width := 60, gapTop := 190, gapBottom := 330, scored := false } ] :=
  ⟨by decide!, by decide, by decide, by norm_num, by norm_num,
   Reachable.tick _ 2000 (1 / 2) 2 (Reachable.start _ 0 1) (by norm_num) (by norm_num),
   gap_invariant sampleCanvas 600 (by decide!) (by decide) (by decide) (1 / 2)
     (by norm_num) (by norm_num) _
     (Reachable.tick _ 2000 (1 / 2) 2 (Reachable.start _ 0 1) (by norm_num) (by norm_num)),
   by decide!⟩

/-! ## Start, restart and jump -/

/-- C9: whatever the prior state, startGame at clock value now gives gameState playing,
score 0, no pipes, lastPipeTime = now and a fresh bird at x = 0.3 * CANVAS_WIDTH,
y = CANVAS_HEIGHT / 2 with velocityY 0 and radius BIRD_RADIUS; the result does not depend
on the prior state, so the click handler resets a finished game as it starts a new one. -/
theorem startGame_reset (c : Canvas) (now : ℚ) (f : ℕ) (s : State) :
    (startGame c now f s).gameState = .playing ∧ (startGame c now f s).score = 0 ∧
      (startGame c now f s).pipes = [] ∧ (startGame c now f s).lastPipeTime = now ∧
      (startGame c now f s).bird =
        some { x := (3 / 10) * CANVAS_WIDTH c, y := CANVAS_HEIGHT c / 2, velocityY := 0,
               radius := BIRD_RADIUS } ∧
      (startGame c now f s).bird = some (createBird c) ∧
      (∀ t : State, startGame c now f t = startGame c now f s) ∧
      onClick c now f { s with gameState := .gameover } =
        onClick c now f { s with gameState := .start } ∧
      onClick c now f { s with gameState := .gameover } =
        onClick c now f (initialState c) := by
  refine ⟨rfl, rfl, rfl, rfl, ?_, rfl, fun _ => rfl, rfl, rfl⟩
  simp [startGame, createBird, mul_comm]

/-- C10 (as stated, refuted): in the gameover state crashedState, whose bird falls with
velocityY = 9, jumpBird sets the bird's velocityY to -8, and likewise it changes the bird
of the start state of the script. -/
theorem jumpBird_gameover_changes_velocity :
    crashedState.gameState = .gameover ∧
      crashedState.bird = some { x := 120, y := 510, velocityY := 9, radius := 15 } ∧
      (jumpBird crashedState).bird =
        some { x := 120, y := 510, velocityY := -8, radius := 15 } ∧
      (jumpBird crashedState).bird ≠ crashedState.bird ∧
      (initialState sampleCanvas).gameState = .start ∧
      (jumpBird (initialState sampleCanvas)).bird ≠ (initialState sampleCanvas).bird := by
  refine ⟨rfl, rfl, rfl, ?_, rfl, ?_⟩
  · intro h
    have h2 := congrArg (fun o : Option Bird => o.map Bird.velocityY) h
    norm_num [jumpBird, crashedState, JUMP_STRENGTH] at h2
  · intro h
    have h2 := congrArg (fun o : Option Bird => o.map Bird.velocityY) h
    norm_num [jumpBird, initialState, createBird, JUMP_STRENGTH] at h2

/-- C10 (amended): in a gameover or start state jumpBird leaves the bird's x, y and radius,
the pipe list, the score, lastPipeTime and gameState unchanged; it sets the velocityY of
the bird, when there is one, to JUMP_STRENGTH, and changes nothing when there is none. -/
theorem jumpBird_outside_playing (s : State)
    (h : s.gameState = .gameover ∨ s.gameState = .start) :
    (jumpBird s).gameState = s.gameState ∧ (jumpBird s).score = s.score ∧
      (jumpBird s).pipes = s.pipes ∧ (jumpBird s).lastPipeTime = s.lastPipeTime ∧
      (jumpBird s).animationId = s.animationId ∧
      (∀ b, s.bird = some b →
        (jumpBird s).bird =
          some { x := b.x, y := b.y, velocityY := JUMP_STRENGTH, radius := b.radius }) ∧
      (s.bird = none → jumpBird s = s) := by
  rcases h with h | h <;>
  · unfold jumpBird
    cases hb : s.bird with
    | none => simp
    | some b => simp

theorem jumpBird_outside_playing_witness :
    (crashedState.gameState = .gameover ∨ crashedState.gameState = .start) ∧
    ((jumpBird crashedState).gameState = crashedState.gameState ∧
      (jumpBird crashedState).score = crashedState.score ∧
      (jumpBird crashedState).pipes = crashedState.pipes ∧
      (jumpBird crashedState).lastPipeTime = crashedState.lastPipeTime ∧
      (jumpBird crashedState).animationId = crashedState.animationId ∧
      (∀ b, crashedState.bird = some b →
        (jumpBird crashedState).bird =
          some { x := b.x, y := b.y, velocityY := JUMP_STRENGTH, radius := b.radius }) ∧
      (crashedState.bird = none → jumpBird crashedState = crashedState)) :=
  ⟨Or.inl rfl, jumpBird_outside_playing crashedState (Or.inl rfl)⟩

/-- C11: on a playing state with a bird, whatever its velocityY, jumpBird sets velocityY to
JUMP_STRENGTH (-8) and leaves the bird's x, y and radius, the pipes, the score,
lastPipeTime and gameState unchanged; jumpBird applied twice equals jumpBird applied
once. -/
theorem jumpBird_impulse (s : State) (b : Bird)
    (hs : s.gameState = .playing) (hb : s.bird = some b) :
    jumpBird s =
        { s with bird := some { x := b.x, y := b.y, velocityY := JUMP_STRENGTH,
                                radius := b.radius } } ∧
      JUMP_STRENGTH = -8 ∧
      (jumpBird s).gameState = .playing ∧ (jumpBird s).pipes = s.pipes ∧
      (jumpBird s).score = s.score ∧ (jumpBird s).lastPipeTime = s.lastPipeTime ∧
      jumpBird (jumpBird s) = jumpBird s := by
  have hj : jumpBird s =
      { s with bird := some { x := b.x, y := b.y, velocityY := JUMP_STRENGTH,
                              radius := b.radius } } := by
    unfold jumpBird
    rw [hb]
  refine ⟨hj, rfl, ?_, ?_, ?_, ?_, ?_⟩
  · rw [hj]
    exact hs
  · rw [hj]
  · rw [hj]
  · rw [hj]
  · rw [hj]
    rfl

theorem jumpBird_impulse_witness :
    sampleState.gameState = .playing ∧ sampleState.bird = some sampleBird ∧
    (jumpBird sampleState =
        { sampleState with
          bird := some { x := sampleBird.x, y := sampleBird.y, velocityY := JUMP_STRENGTH,
                         radius := sampleBird.radius } } ∧
      JUMP_STRENGTH = -8 ∧
      (jumpBird sampleState).gameState = .playing ∧
      (jumpBird sampleState).pipes = sampleState.pipes ∧
      (jumpBird sampleState).score = sampleState.score ∧
      (jumpBird sampleState).lastPipeTime = sampleState.lastPipeTime ∧
      jumpBird (jumpBird sampleState) = jumpBird sampleState) :=
  ⟨rfl, rfl, jumpBird_impulse sampleState sampleBird rfl rfl⟩

/-! ## Outside the playing state -/

theorem updateBird_frozen (s : State) (h : s.gameState ≠ .playing) : updateBird s = s := by
  unfold updateBird
  rw [if_pos h]

theorem updatePipes_frozen (c : Canvas) (now u : ℚ) (s : State) (h : s.gameState ≠ .playing) :
    updatePipes c now u s = s := by
  unfold updatePipes
  rw [if_pos h]

theorem checkCollisions_frozen (c : Canvas) (s : State) (h : s.gameState ≠ .playing) :
    checkCollisions c s = s := by
  unfold checkCollisions
  rw [if_pos h]

theorem gameLoop_gameover (c : Canvas) (now u : ℚ) (f : ℕ) (s : State)
    (h : s.gameState = .gameover) :
    gameLoop c now u f s = { s with animationId := none } := by
  unfold gameLoop
  rw [if_pos h]

/-- C12: in a state whose gameState is not playing (start or gameover), updateBird,
updatePipes and checkCollisions each return the state unchanged, and a call of gameLoop in
gameover changes nothing except setting animationId to null. -/
theorem frozen_outside_playing (c : Canvas) (now u : ℚ) (f : ℕ) (s : State)
    (h : s.gameState ≠ .playing) :
    updateBird s = s ∧ updatePipes c now u s = s ∧ checkCollisions c s = s ∧
      (s.gameState = .gameover → gameLoop c now u f s = { s with animationId := none }) :=
  ⟨updateBird_frozen s h, updatePipes_frozen c now u s h, checkCollisions_frozen c s h,
    gameLoop_gameover c now u f s⟩

theorem frozen_outside_playing_witness :
    crashedState.gameState ≠ .playing ∧
    (updateBird crashedState = crashedState ∧
      updatePipes sampleCanvas 5000 (1 / 2) crashedState = crashedState ∧
      checkCollisions sampleCanvas crashedState = crashedState ∧
      (crashedState.gameState = .gameover →
        gameLoop sampleCanvas 5000 (1 / 2) 9 crashedState =
          { crashedState with animationId := none })) :=
  ⟨by decide, frozen_outside_playing sampleCanvas 5000 (1 / 2) 9 crashedState (by decide)⟩

/-! ## Scheduling of frames -/

theorem gameLoop_animationId (c : Canvas) (now u : ℚ) (f : ℕ) (s : State)
    (h : s.gameState ≠ .gameover) : (gameLoop c now u f s).animationId = some f := by
  unfold gameLoop
  rw [if_neg h]

/-- C13 (as stated, refuted): on the playing state fallingState the frame detects the
ground collision and ends in gameover, and the same call of gameLoop has requested the
next frame: animationId holds its handle. -/
theorem gameLoop_schedules_after_collision :
    fallingState.gameState = .playing ∧
      (gameLoop sampleCanvas 0 0 5 fallingState).gameState = .gameover ∧
      (gameLoop sampleCanvas 0 0 5 fallingState).animationId = some 5 := by
  refine ⟨rfl, ?_, gameLoop_animationId _ _ _ _ _ (by decide)⟩
  decide!

/-- C13 (amended): on a playing state in which the frame detects a collision, gameLoop
ends in gameover and still requests one more frame, whose handle animationId holds; the
call of gameLoop for that frame changes nothing except setting animationId to null and
requests no frame, and so does every later call in gameover: the loop halts one frame
after the collision. -/
theorem gameLoop_halts_next_frame (c : Canvas) (now u : ℚ) (f : ℕ) (s : State)
    (hs : s.gameState = .playing)
    (hcol : (gameLoop c now u f s).gameState = .gameover) :
    (gameLoop c now u f s).animationId = some f ∧
      (∀ (now2 u2 : ℚ) (f2 : ℕ),
        gameLoop c now2 u2 f2 (gameLoop c now u f s) =
          { gameLoop c now u f s with animationId := none }) ∧
      (∀ (now2 u2 : ℚ) (f2 : ℕ) (t : State), t.gameState = .gameover →
        gameLoop c now2 u2 f2 t = { t with animationId := none } ∧
        (gameLoop c now2 u2 f2 t).gameState = .gameover ∧
        (gameLoop c now2 u2 f2 t).animationId = none) := by
  refine ⟨gameLoop_animationId c now u f s (by simp [hs]), ?_, ?_⟩
  · intro now2 u2 f2
    exact gameLoop_gameover c now2 u2 f2 _ hcol
  · intro now2 u2 f2 t ht
    rw [gameLoop_gameover c now2 u2 f2 t ht]
    exact ⟨rfl, ht, rfl⟩

theorem gameLoop_halts_next_frame_witness :
    fallingState.gameState = .playing ∧
    (gameLoop sampleCanvas 0 0 5 fallingState).gameState = .gameover ∧
    ((gameLoop sampleCanvas 0 0 5 fallingState).animationId = some 5 ∧
      (∀ (now2 u2 : ℚ) (f2 : ℕ),
        gameLoop sampleCanvas now2 u2 f2 (gameLoop sampleCanvas 0 0 5 fallingState) =
          { gameLoop sampleCanvas 0 0 5 fallingState with animationId := none }) ∧
      (∀ (now2 u2 : ℚ) (f2 : ℕ) (t : State), t.gameState = .gameover →
        gameLoop sampleCanvas now2 u2 f2 t = { t with animationId := none } ∧
        (gameLoop sampleCanvas now2 u2 f2 t).gameState = .gameover ∧
        (gameLoop sampleCanvas now2 u2 f2 t).animationId = none)) :=
  have hcol : (gameLoop sampleCanvas 0 0 5 fallingState).gameState = .gameover := by
    decide!
  ⟨rfl, hcol, gameLoop_halts_next_frame sampleCanvas 0 0 5 fallingState rfl hcol⟩

/-! ## The collision detector as a pure check -/

theorem checkCollisions_cases (c : Canvas) (s : State) :
    checkCollisions c s = s ∨ (s.gameState = .playing ∧ checkCollisions c s = endGame s) := by
  by_cases hs : s.gameState = .playing
  · unfold checkCollisions
    rw [if_neg (by simp [hs])]
    split
    · exact Or.inl rfl
    · split
      · exact Or.inr ⟨hs, rfl⟩
      · rw [checkPipes_eq]
        split
        · exact Or.inr ⟨hs, rfl⟩
        · exact Or.inl rfl
  · exact Or.inl (checkCollisions_frozen c s hs)

theorem checkCollisions_verdict (c : Canvas) (s t : State)
    (h1 : t.gameState = s.gameState) (h2 : t.bird = s.bird) (h3 : t.pipes = s.pipes) :
    (checkCollisions c t).gameState = (checkCollisions c s).gameState := by
  unfold checkCollisions
  rw [h1, h2, h3]
  split
  · exact h1
  · split
    · exact h1
    · split
      · rfl
      · rw [checkPipes_eq, checkPipes_eq]
        split
        · rfl
        · exact h1

/-- C14: for every state, checkCollisions (with the endGame it may call) leaves bird,
pipes, score and lastPipeTime unchanged and changes at most gameState, from playing to
gameover; its verdict depends on the state only through gameState, bird and pipes; and
checkCollisions applied twice gives the same state as applied once. -/
theorem checkCollisions_pure (c : Canvas) (s : State) :
    (checkCollisions c s).bird = s.bird ∧ (checkCollisions c s).pipes = s.pipes ∧
      (checkCollisions c s).score = s.score ∧
      (checkCollisions c s).lastPipeTime = s.lastPipeTime ∧
      (checkCollisions c s).animationId = s.animationId ∧
      ((checkCollisions c s).gameState = s.gameState ∨
        (s.gameState = .playing ∧ (checkCollisions c s).gameState = .gameover)) ∧
      (∀ t : State, t.gameState = s.gameState → t.bird = s.bird → t.pipes = s.pipes →
        (checkCollisions c t).gameState = (checkCollisions c s).gameState) ∧
      checkCollisions c (checkCollisions c s) = checkCollisions c s := by
  have hv := checkCollisions_verdict c s
  rcases checkCollisions_cases c s with h | ⟨hp, h⟩
  · refine ⟨by rw [h], by rw [h], by rw [h], by rw [h], by rw [h], Or.inl (by rw [h]), hv,
      ?_⟩
    rw [h]
    exact h
  · refine ⟨by rw [h]; rfl, by rw [h]; rfl, by rw [h]; rfl, by rw [h]; rfl, by rw [h]; rfl,
      Or.inr ⟨hp, by rw [h]; rfl⟩, hv, ?_⟩
    rw [h]
    exact checkCollisions_frozen c _ (by simp [endGame])

/-! ## Spawn cadence -/

/-- C15: on a playing state, if now - lastPipeTime > PIPE_SPAWN_INTERVAL (1800) then
updatePipes calls spawnPipe once, which appends one pipe with x = CANVAS_WIDTH,
width = PIPE_WIDTH and scored = false at the end of the list before the loop runs, and sets
lastPipeTime = now; otherwise it appends no pipe and leaves lastPipeTime unchanged. -/
theorem spawn_cadence (c : Canvas) (now u : ℚ) (s : State) (hs : s.gameState = .playing) :
    PIPE_SPAWN_INTERVAL = 1800 ∧
      (now - s.lastPipeTime > PIPE_SPAWN_INTERVAL →
        spawnStep c now u s = { spawnPipe c u s with lastPipeTime := now } ∧
        (spawnPipe c u s).pipes = s.pipes ++ [newPipe c u] ∧
        (newPipe c u).x = CANVAS_WIDTH c ∧ (newPipe c u).width = PIPE_WIDTH ∧
        (newPipe c u).scored = false ∧
        (updatePipes c now u s).lastPipeTime = now ∧
        (updatePipes c now u s).pipes =
          ((pipeLoop s.bird (s.pipes ++ [newPipe c u]) s.score).1).filter
            (fun q => decide (q.x + q.width > 0)) ∧
        (pipeLoop s.bird (s.pipes ++ [newPipe c u]) s.score).1.length =
          s.pipes.length + 1) ∧
      (¬ now - s.lastPipeTime > PIPE_SPAWN_INTERVAL →
        spawnStep c now u s = s ∧
        (updatePipes c now u s).lastPipeTime = s.lastPipeTime ∧
        (updatePipes c now u s).pipes =
          ((pipeLoop s.bird s.pipes s.score).1).filter
            (fun q => decide (q.x + q.width > 0)) ∧
        (pipeLoop s.bird s.pipes s.score).1.length = s.pipes.length) := by
  refine ⟨rfl, ?_, ?_⟩
  · intro h
    have hsp : spawnStep c now u s = { spawnPipe c u s with lastPipeTime := now } := by
      unfold spawnStep
      rw [if_pos h]
    refine ⟨hsp, rfl, rfl, rfl, rfl, ?_, ?_, ?_⟩
    · rw [updatePipes_playing c now u s hs, hsp]
    · rw [updatePipes_pipes c now u s hs, spawnStep_pipes, if_pos h]
    · rw [pipeLoop_fst]
      simp
  · intro h
    have hsp : spawnStep c now u s = s := by
      unfold spawnStep
      rw [if_neg h]
    refine ⟨hsp, ?_, ?_, ?_⟩
    · rw [updatePipes_playing c now u s hs, hsp]
    · rw [updatePipes_pipes c now u s hs, hsp]
    · rw [pipeLoop_fst]
      simp

theorem spawn_cadence_witness :
    sampleState.gameState = .playing ∧
    (PIPE_SPAWN_INTERVAL = 1800 ∧
      ((2000 : ℚ) - sampleState.lastPipeTime > PIPE_SPAWN_INTERVAL →
        spawnStep sampleCanvas 2000 (1 / 2) sampleState =
          { spawnPipe sampleCanvas (1 / 2) sampleState with lastPipeTime := 2000 } ∧
        (spawnPipe sampleCanvas (1 / 2) sampleState).pipes =
          sampleState.pipes ++ [newPipe sampleCanvas (1 / 2)] ∧
        (newPipe sampleCanvas (1 / 2)).x = CANVAS_WIDTH sampleCanvas ∧
        (newPipe sampleCanvas (1 / 2)).width = PIPE_WIDTH ∧
        (newPipe sampleCanvas (1 / 2)).scored = false ∧
        (updatePipes sampleCanvas 2000 (1 / 2) sampleState).lastPipeTime = 2000 ∧
        (updatePipes sampleCanvas 2000 (1 / 2) sampleState).pipes =
          ((pipeLoop sampleState.bird (sampleState.pipes ++ [newPipe sampleCanvas (1 / 2)])
            sampleState.score).1).filter (fun q => decide (q.x + q.width > 0)) ∧
        (pipeLoop sampleState.bird (sampleState.pipes ++ [newPipe sampleCanvas (1 / 2)])
          sampleState.score).1.length = sampleState.pipes.length + 1) ∧
      (¬ (2000 : ℚ) - sampleState.lastPipeTime > PIPE_SPAWN_INTERVAL →
        spawnStep sampleCanvas 2000 (1 / 2) sampleState = sampleState ∧
        (updatePipes sampleCanvas 2000 (1 / 2) sampleState).lastPipeTime =
          sampleState.lastPipeTime ∧
        (updatePipes sampleCanvas 2000 (1 / 2) sampleState).pipes =
          ((pipeLoop sampleState.bird sampleState.pipes sampleState.score).1).filter
            (fun q => decide (q.x + q.width > 0)) ∧
        (pipeLoop sampleState.bird sampleState.pipes sampleState.score).1.length =
          sampleState.pipes.length)) ∧
    (2000 : ℚ) - sampleState.lastPipeTime > PIPE_SPAWN_INTERVAL :=
  ⟨rfl, spawn_cadence sampleCanvas 2000 (1 / 2) sampleState rfl, by
    norm_num [sampleState, PIPE_SPAWN_INTERVAL]⟩

/-! ## The scoring test and the centre of the bird -/

/-- C17 (the code at the failing input): in centrePassedState the pipe, once scrolled, has
its right edge at 50 + 60 = 110, which the centre of the bird (x = 120) has passed; the
test of line 130 compares the left edge of the bird (120 - 15 = 105), so updatePipes
leaves the pipe unscored and the score at 0. -/
theorem centre_passed_not_scored :
    centrePassedState.gameState = .playing ∧ centrePassedState.bird = some sampleBird ∧
      sampleBird.x > (53 - PIPE_SPEED) + 60 ∧
      ¬ sampleBird.x - sampleBird.radius > (53 - PIPE_SPEED) + 60 ∧
      (updatePipes sampleCanvas 0 0 centrePassedState).pipes =
        [ { x := 50, width := 60, gapTop := 100, gapBottom := 300, scored := false } ] ∧
      (updatePipes sampleCanvas 0 0 centrePassedState).score = 0 := by
  refine ⟨rfl, rfl, ?_, ?_, ?_, ?_⟩
  · norm_num [sampleBird, PIPE_SPEED]
  · norm_num [sampleBird, PIPE_SPEED]
  · norm_num [updatePipes, centrePassedState, sampleBird, spawnStep, pipeLoop, pipeBody,
      scoreTest, PIPE_SPEED, PIPE_SPAWN_INTERVAL, List.filter]
  · norm_num [updatePipes, centrePassedState, sampleBird, spawnStep, pipeLoop, pipeBody,
      scoreTest, PIPE_SPEED, PIPE_SPAWN_INTERVAL, List.filter]

/-! ## Passing through the gap -/

theorem circleRect_false_of_dy (cx cy r rx ry rw rh : ℚ) (hr : 0 ≤ r)
    (h : r < cy - max ry (min cy (ry + rh)) ∨ cy - max ry (min cy (ry + rh)) < -r) :
    circleRect cx cy r rx ry rw rh = false := by
  rw [← Bool.not_eq_true, circleRect_iff]
  intro hle
  have hx := mul_self_nonneg (cx - max rx (min cx (rx + rw)))
  rcases h with h | h
  · nlinarith
  · nlinarith

theorem checkCollisions_clear (c : Canvas) (s : State) (b : Bird)
    (hb : s.bird = some b) (hg : b.y + b.radius < GROUND_Y c)
    (hp : ∀ q ∈ s.pipes, pipeHit c b.x b.y b.radius q = false) :
    checkCollisions c s = s := by
  unfold checkCollisions
  split
  · rfl
  · rw [hb]
    simp only
    rw [if_neg (not_le.mpr hg), checkPipes_eq, if_neg]
    rw [List.any_eq_true]
    rintro ⟨q, hq, hhit⟩
    rw [hp q hq] at hhit
    exact Bool.noConfusion hhit

/-- C19: for a pipe with 0 <= gapTop, gapBottom <= CANVAS_HEIGHT and width >= 0 at any x,
and a bird with radius >= 0 at any x, if gapTop < y - radius and y + radius < gapBottom
then circleRect is false for the top rectangle and for the bottom rectangle of the pipe;
the loop of checkCollisions passes over such a pipe, and a state above the ground line
all of whose pipes are such is left as it is. -/
theorem safe_passage (c : Canvas) (p : Pipe) (b : Bird)
    (h0 : 0 ≤ p.gapTop) (hH : p.gapBottom ≤ CANVAS_HEIGHT c) (hw : 0 ≤ p.width)
    (hr : 0 ≤ b.radius) (h1 : p.gapTop < b.y - b.radius) (h2 : b.y + b.radius < p.gapBottom) :
    circleRect b.x b.y b.radius p.x 0 p.width p.gapTop = false ∧
      circleRect b.x b.y b.radius p.x p.gapBottom p.width (CANVAS_HEIGHT c - p.gapBottom)
        = false ∧
      pipeHit c b.x b.y b.radius p = false ∧
      (∀ (rest : List Pipe) (s : State),
        checkPipes c b.x b.y b.radius (p :: rest) s =
          checkPipes c b.x b.y b.radius rest s) ∧
      (∀ s : State, s.bird = some b → b.y + b.radius < GROUND_Y c →
        (∀ q ∈ s.pipes, 0 ≤ q.gapTop ∧ q.gapTop < b.y - b.radius ∧
          b.y + b.radius < q.gapBottom) →
        checkCollisions c s = s) := by
  have hw2 := hw
  have hH2 := hH
  have top : ∀ q : Pipe, 0 ≤ q.gapTop → q.gapTop < b.y - b.radius →
      circleRect b.x b.y b.radius q.x 0 q.width q.gapTop = false := by
    intro q hq0 hq1
    apply circleRect_false_of_dy _ _ _ _ _ _ _ hr
    left
    have hm : max 0 (min b.y (0 + q.gapTop)) = q.gapTop := by
      rw [zero_add, min_eq_right (by linarith), max_eq_right hq0]
    rw [hm]
    linarith
  have bot : ∀ q : Pipe, b.y + b.radius < q.gapBottom →
      circleRect b.x b.y b.radius q.x q.gapBottom q.width (CANVAS_HEIGHT c - q.gapBottom)
        = false := by
    intro q hq2
    apply circleRect_false_of_dy _ _ _ _ _ _ _ hr
    right
    have hm : max q.gapBottom (min b.y (q.gapBottom + (CANVAS_HEIGHT c - q.gapBottom))) =
        q.gapBottom := by
      apply max_eq_left
      exact le_trans (min_le_left _ _) (by linarith)
    rw [hm]
    linarith
  have hit : ∀ q : Pipe, 0 ≤ q.gapTop → q.gapTop < b.y - b.radius →
      b.y + b.radius < q.gapBottom → pipeHit c b.x b.y b.radius q = false := by
    intro q hq0 hq1 hq2
    unfold pipeHit
    rw [top q hq0 hq1, bot q hq2]
    rfl
  refine ⟨top p h0 h1, bot p h2, hit p h0 h1 h2, ?_, ?_⟩
  · intro rest s
    simp only [checkPipes]
    rw [hit p h0 h1 h2]
    rfl
  · intro s hb hg hall
    apply checkCollisions_clear c s b hb hg
    intro q hq
    obtain ⟨a1, a2, a3⟩ := hall q hq
    exact hit q a1 a2 a3

theorem safe_passage_witness :
    (0 : ℚ) ≤ gapPipe.gapTop ∧ gapPipe.gapBottom ≤ CANVAS_HEIGHT sampleCanvas ∧
    (0 : ℚ) ≤ gapPipe.width ∧ (0 : ℚ) ≤ sampleBird.radius ∧
    gapPipe.gapTop < sampleBird.y - sampleBird.radius ∧
    sampleBird.y + sampleBird.radius < gapPipe.gapBottom ∧
    (circleRect sampleBird.x sampleBird.y sampleBird.radius gapPipe.x 0 gapPipe.width
        gapPipe.gapTop = false ∧
      circleRect sampleBird.x sampleBird.y sampleBird.radius gapPipe.x gapPipe.gapBottom
        gapPipe.width (CANVAS_HEIGHT sampleCanvas - gapPipe.gapBottom) = false ∧
      pipeHit sampleCanvas sampleBird.x sampleBird.y sampleBird.radius gapPipe = false ∧
      (∀ (rest : List Pipe) (s : State),
        checkPipes sampleCanvas sampleBird.x sampleBird.y sampleBird.radius (gapPipe :: rest) s
          = checkPipes sampleCanvas sampleBird.x sampleBird.y sampleBird.radius rest s) ∧
      (∀ s : State, s.bird = some sampleBird →
        sampleBird.y + sampleBird.radius < GROUND_Y sampleCanvas →
        (∀ q ∈ s.pipes, 0 ≤ q.gapTop ∧ q.gapTop < sampleBird.y - sampleBird.radius ∧
          sampleBird.y + sampleBird.radius < q.gapBottom) →
        checkCollisions sampleCanvas s = s)) :=
  ⟨by norm_num [gapPipe], by norm_num [gapPipe, CANVAS_HEIGHT, sampleCanvas],
   by norm_num [gapPipe], by norm_num [sampleBird], by norm_num [gapPipe, sampleBird],
   by norm_num [gapPipe, sampleBird],
   safe_passage sampleCanvas gapPipe sampleBird (by norm_num [gapPipe])
     (by norm_num [gapPipe, CANVAS_HEIGHT, sampleCanvas]) (by norm_num [gapPipe])
     (by norm_num [sampleBird]) (by norm_num [gapPipe, sampleBird])
     (by norm_num [gapPipe, sampleBird])⟩

/-! ## Pruned pipes have been counted -/

theorem pipe_balance (b : Bird) (hx : b.x - b.radius > 0) (p : Pipe) :
    (if scoreTest (some b) { p with x := p.x - PIPE_SPEED } then 1 else 0) +
        (if p.scored then 1 else 0) =
      (if (pipeBody (some b) p 0).1.x + (pipeBody (some b) p 0).1.width > 0 then
          (if (pipeBody (some b) p 0).1.scored then 1 else 0) else 0) +
        (if (pipeBody (some b) p 0).1.x + (pipeBody (some b) p 0).1.width > 0 then 0
          else 1) := by
  obtain ⟨g1, g2, _, _, g5, g6⟩ := pipeBody_scoredStep b p
  have hflip := pipeBody_flip (some b) p
  rw [g1, g2]
  cases hsc : p.scored
  · have g5' := g5 hsc
    rw [hsc] at hflip
    simp only [Bool.not_false, Bool.true_and] at hflip
    rw [← hflip]
    by_cases hq : (pipeBody (some b) p 0).1.scored = true
    · rw [hq]
      by_cases hk : p.x - PIPE_SPEED + p.width > 0 <;> simp [hk]
    · have hq2 : (pipeBody (some b) p 0).1.scored = false := by simpa using hq
      rw [hq2]
      have hk : p.x - PIPE_SPEED + p.width > 0 := by
        by_contra hcon
        apply hq
        rw [g5']
        linarith
      simp [hk]
  · have hq := g6 hsc
    rw [hsc] at hflip
    simp only [Bool.not_true, Bool.false_and] at hflip
    rw [← hflip, hq]
    by_cases hk : p.x - PIPE_SPEED + p.width > 0 <;> simp [hk]

theorem list_balance (b : Bird) (hx : b.x - b.radius > 0) (ps : List Pipe) :
    ps.countP (fun p => scoreTest (some b) { p with x := p.x - PIPE_SPEED }) +
        scoredCount ps =
      scoredCount ((ps.map (fun p => (pipeBody (some b) p 0).1)).filter
          (fun q => decide (q.x + q.width > 0))) +
        prunedCount (ps.map (fun p => (pipeBody (some b) p 0).1)) := by
  induction ps with
  | nil => rfl
  | cons p rest ih =>
    have hp := pipe_balance b hx p
    simp only [scoredCount, prunedCount, List.map_cons, List.countP_cons, List.filter_cons]
      at ih ⊢
    by_cases hk : (pipeBody (some b) p 0).1.x + (pipeBody (some b) p 0).1.width > 0
    · have hd : decide ((pipeBody (some b) p 0).1.x + (pipeBody (some b) p 0).1.width > 0)
          = true := by simpa using hk
      simp only [hk, ↓reduceIte] at hp
      simp only [hd, ↓reduceIte, List.countP_cons, Bool.not_true, Bool.false_eq_true]
      omega
    · have hd : decide ((pipeBody (some b) p 0).1.x + (pipeBody (some b) p 0).1.width > 0)
          = false := by simpa using hk
      simp only [hk, ↓reduceIte] at hp
      simp only [hd, ↓reduceIte, Bool.not_false, Bool.false_eq_true]
      omega

theorem scoredCount_spawnStep (c : Canvas) (now u : ℚ) (s : State) :
    scoredCount (spawnStep c now u s).pipes = scoredCount s.pipes := by
  rw [spawnStep_pipes]
  split
  · simp [scoredCount, newPipe]
  · rfl

theorem updatePipes_balance (c : Canvas) (now u : ℚ) (s : State) (b : Bird)
    (hb : s.bird = some b) (hx : b.x - b.radius > 0) :
    (updatePipes c now u s).score + scoredCount s.pipes =
      s.score + scoredCount (updatePipes c now u s).pipes + prunedBy c now u s := by
  by_cases hs : s.gameState = .playing
  · have h := list_balance b hx (spawnStep c now u s).pipes
    rw [scoredCount_spawnStep] at h
    rw [updatePipes_score c now u s hs, updatePipes_pipes c now u s hs, hb, pipeLoop_fst]
    unfold prunedBy
    rw [if_neg (by simp [hs]), spawnStep_bird, hb, pipeLoop_fst]
    omega
  · rw [updatePipes_frozen c now u s hs]
    unfold prunedBy
    rw [if_pos hs, Nat.add_zero]

theorem updateBird_bird_geom (s : State) (b : Bird) (hb : s.bird = some b) :
    ∃ b1, (updateBird s).bird = some b1 ∧ b1.x = b.x ∧ b1.radius = b.radius := by
  by_cases hs : s.gameState = .playing
  · rw [updateBird_playing s b hs hb]
    simp only
    split
    · exact ⟨_, rfl, rfl, rfl⟩
    · exact ⟨_, rfl, rfl, rfl⟩
  · rw [updateBird_frozen s hs]
    exact ⟨b, hb, rfl, rfl⟩

theorem jumpBird_bird_geom (s : State) (b : Bird) (hb : s.bird = some b) :
    ∃ b1, (jumpBird s).bird = some b1 ∧ b1.x = b.x ∧ b1.radius = b.radius := by
  unfold jumpBird
  rw [hb]
  exact ⟨_, rfl, rfl, rfl⟩

theorem checkCollisions_bird (c : Canvas) (s : State) :
    (checkCollisions c s).bird = s.bird := by
  rcases checkCollisions_cases c s with h | ⟨_, h⟩
  · rw [h]
  · rw [h]
    rfl

theorem gameLoop_balance (c : Canvas) (now u : ℚ) (f : ℕ) (s : State) (b : Bird)
    (hb : s.bird = some b) (hx : b.x - b.radius > 0) :
    (gameLoop c now u f s).score + scoredCount s.pipes =
        s.score + scoredCount (gameLoop c now u f s).pipes +
          (if s.gameState = .gameover then 0 else prunedBy c now u (updateBird s)) ∧
      ∃ b1, (gameLoop c now u f s).bird = some b1 ∧ b1.x = b.x ∧ b1.radius = b.radius := by
  by_cases hg : s.gameState = .gameover
  · rw [gameLoop_gameover c now u f s hg, if_pos hg]
    exact ⟨rfl, b, hb, rfl, rfl⟩
  · obtain ⟨b1, hb1, e1, e2⟩ := updateBird_bird_geom s b hb
    have hbal := updatePipes_balance c now u (updateBird s) b1 hb1 (by rw [e1, e2]; exact hx)
    rw [updateBird_score, updateBird_pipes] at hbal
    unfold gameLoop
    rw [if_neg hg, if_neg hg]
    simp only
    rw [checkCollisions_score, checkCollisions_pipes, checkCollisions_bird, updatePipes_bird]
    exact ⟨hbal, b1, hb1, e1, e2⟩

theorem run_balance (c : Canvas) (evs : List Input) (s : State) (b : Bird)
    (hb : s.bird = some b) (hx : b.x - b.radius > 0) :
    (run c evs s).score + scoredCount s.pipes =
      s.score + scoredCount (run c evs s).pipes + prunedInRun c evs s := by
  induction evs generalizing s b with
  | nil => simp [run, prunedInRun]
  | cons i rest ih =>
    cases i with
    | tick now u f =>
      obtain ⟨h1, b1, hb1, e1, e2⟩ := gameLoop_balance c now u f s b hb hx
      have h2 := ih (gameLoop c now u f s) b1 hb1 (by rw [e1, e2]; exact hx)
      simp only [run, step, prunedInRun]
      omega
    | jump =>
      obtain ⟨b1, hb1, e1, e2⟩ := jumpBird_bird_geom s b hb
      have h2 := ih (jumpBird s) b1 hb1 (by rw [e1, e2]; exact hx)
      rw [jumpBird_score, jumpBird_pipes] at h2
      simp only [run, step, prunedInRun]
      exact h2

/-- C20: on a playing state whose bird has x - radius > 0, every pipe that the loop of
updatePipes produced and that the pruning removes has scored = true when it is removed
(scored in that frame or before), and the score accounts for it: the score after
updatePipes, less the scored pipes still in the list, exceeds the same quantity before by
exactly the number of pipes removed, and so along every run; from startGame, when
0.3 * CANVAS_WIDTH > BIRD_RADIUS (so that the bird of createBird satisfies the condition),
the score is the number of pipes pruned so far plus the number of scored pipes still in
the list. -/
theorem pruned_pipes_scored (c : Canvas) (now u : ℚ) (s : State) (b : Bird)
    (hs : s.gameState = .playing) (hb : s.bird = some b) (hx : b.x - b.radius > 0) :
    (∀ q ∈ (pipeLoop (some b) (spawnStep c now u s).pipes s.score).1,
        q ∉ (updatePipes c now u s).pipes → q.scored = true) ∧
      (updatePipes c now u s).pipes =
        ((pipeLoop (some b) (spawnStep c now u s).pipes s.score).1).filter
          (fun q => decide (q.x + q.width > 0)) ∧
      ((3 / 10) * CANVAS_WIDTH c > BIRD_RADIUS →
        (createBird c).x - (createBird c).radius > 0) ∧
      prunedBy c now u s + (updatePipes c now u s).pipes.length =
        (pipeLoop (some b) (spawnStep c now u s).pipes s.score).1.length ∧
      (updatePipes c now u s).score + scoredCount s.pipes =
        s.score + scoredCount (updatePipes c now u s).pipes + prunedBy c now u s ∧
      (∀ evs : List Input,
        (run c evs s).score + scoredCount s.pipes =
          s.score + scoredCount (run c evs s).pipes + prunedInRun c evs s) ∧
      ((3 / 10) * CANVAS_WIDTH c > BIRD_RADIUS →
        ∀ (s0 : State) (now0 : ℚ) (f0 : ℕ) (evs : List Input),
          (run c evs (startGame c now0 f0 s0)).score =
            prunedInRun c evs (startGame c now0 f0 s0) +
              scoredCount (run c evs (startGame c now0 f0 s0)).pipes) := by
  have hpipes := updatePipes_pipes c now u s hs
  rw [hb] at hpipes
  have hcb : (3 / 10) * CANVAS_WIDTH c > BIRD_RADIUS →
      (createBird c).x - (createBird c).radius > 0 := by
    intro h
    simp only [createBird]
    linarith
  refine ⟨?_, hpipes, hcb, ?_, updatePipes_balance c now u s b hb hx,
    fun evs => run_balance c evs s b hb hx, ?_⟩
  · intro q hq hnot
    rw [hpipes, List.mem_filter] at hnot
    have hq2 : ¬ q.x + q.width > 0 := by
      intro hpos
      exact hnot ⟨hq, by simpa using hpos⟩
    rw [pipeLoop_fst] at hq
    obtain ⟨p, _, rfl⟩ := List.mem_map.mp hq
    obtain ⟨g1, g2, _, _, g5, g6⟩ := pipeBody_scoredStep b p
    cases hsc : p.scored
    · rw [g5 hsc]
      rw [g1, g2] at hq2
      linarith
    · exact g6 hsc
  · rw [hpipes]
    unfold prunedBy prunedCount
    rw [if_neg (by simp [hs]), spawnStep_bird, hb, spawnStep_score, ← List.countP_eq_length_filter]
    have h := List.length_eq_countP_add_countP
      (fun q : Pipe => decide (q.x + q.width > 0))
      (pipeLoop (some b) (spawnStep c now u s).pipes s.score).1
    rw [h, Nat.add_comm]
    congr 1
    apply List.countP_congr
    intro x _
    simp
  · intro h s0 now0 f0 evs
    have hbal := run_balance c evs (startGame c now0 f0 s0) (createBird c) rfl (hcb h)
    simp only [startGame, scoredCount, List.countP_nil] at hbal ⊢
    omega

theorem pruned_pipes_scored_witness :
    lateState.gameState = .playing ∧ lateState.bird = some sampleBird ∧
    sampleBird.x - sampleBird.radius > 0 ∧
    ((∀ q ∈ (pipeLoop (some sampleBird) (spawnStep sampleCanvas 0 0 lateState).pipes
          lateState.score).1,
        q ∉ (updatePipes sampleCanvas 0 0 lateState).pipes → q.scored = true) ∧
      (updatePipes sampleCanvas 0 0 lateState).pipes =
        ((pipeLoop (some sampleBird) (spawnStep sampleCanvas 0 0 lateState).pipes
          lateState.score).1).filter (fun q => decide (q.x + q.width > 0)) ∧
      ((3 / 10) * CANVAS_WIDTH sampleCanvas > BIRD_RADIUS →
        (createBird sampleCanvas).x - (createBird sampleCanvas).radius > 0) ∧
      prunedBy sampleCanvas 0 0 lateState +
          (updatePipes sampleCanvas 0 0 lateState).pipes.length =
        (pipeLoop (some sampleBird) (spawnStep sampleCanvas 0 0 lateState).pipes
          lateState.score).1.length ∧
      (updatePipes sampleCanvas 0 0 lateState).score + scoredCount lateState.pipes =
        lateState.score + scoredCount (updatePipes sampleCanvas 0 0 lateState).pipes +
          prunedBy sampleCanvas 0 0 lateState ∧
      (∀ evs : List Input,
        (run sampleCanvas evs lateState).score + scoredCount lateState.pipes =
          lateState.score + scoredCount (run sampleCanvas evs lateState).pipes +
            prunedInRun sampleCanvas evs lateState) ∧
      ((3 / 10) * CANVAS_WIDTH sampleCanvas > BIRD_RADIUS →
        ∀ (s0 : State) (now0 : ℚ) (f0 : ℕ) (evs : List Input),
          (run sampleCanvas evs (startGame sampleCanvas now0 f0 s0)).score =
            prunedInRun sampleCanvas evs (startGame sampleCanvas now0 f0 s0) +
              scoredCount (run sampleCanvas evs (startGame sampleCanvas now0 f0 s0)).pipes)) ∧
    lateState.score = 0 ∧ scoredCount lateState.pipes = 0 ∧
    (updatePipes sampleCanvas 0 0 lateState).pipes = [] ∧
    prunedBy sampleCanvas 0 0 lateState = 1 ∧
    (updatePipes sampleCanvas 0 0 lateState).score = 1 :=
  ⟨rfl, rfl, by decide!,
   pruned_pipes_scored sampleCanvas 0 0 lateState sampleBird rfl rfl (by decide!),
   rfl, by decide!, by decide!, by decide!, by decide!⟩

/-! ## Order of the pipes -/

theorem pipesOrdered_updatePipes (c : Canvas) (now u : ℚ) (s : State)
    (h : PipesOrdered c s.pipes) : PipesOrdered c (updatePipes c now u s).pipes := by
  by_cases hs : s.gameState = .playing
  · rw [updatePipes_pipes c now u s hs, pipeLoop_fst]
    obtain ⟨hpw, hbd⟩ := h
    have hspeed : (0 : ℚ) < PIPE_SPEED := by norm_num [PIPE_SPEED]
    have hin : (spawnStep c now u s).pipes.Pairwise (fun p q => p.x < q.x) ∧
        ∀ p ∈ (spawnStep c now u s).pipes, p.x ≤ CANVAS_WIDTH c := by
      rw [spawnStep_pipes]
      split
      · refine ⟨?_, ?_⟩
        · rw [List.pairwise_append]
          refine ⟨hpw, List.pairwise_singleton _ _, ?_⟩
          intro a ha b hb
          rw [List.mem_singleton.mp hb]
          have := hbd a ha
          simp only [newPipe]
          linarith
        · intro p hp
          rcases List.mem_append.mp hp with h1 | h1
          · have := hbd p h1
            linarith
          · rw [List.mem_singleton.mp h1]
            exact le_refl _
      · exact ⟨hpw, fun p hp => by have := hbd p hp; linarith⟩
    obtain ⟨hpw2, hbd2⟩ := hin
    refine ⟨?_, ?_⟩
    · apply List.Pairwise.filter
      rw [List.pairwise_map]
      refine hpw2.imp ?_
      intro p q hpq
      rw [(pipeBody_geom s.bird p).1, (pipeBody_geom s.bird q).1]
      linarith
    · intro q hq
      obtain ⟨hq1, _⟩ := List.mem_filter.mp hq
      obtain ⟨p, hp, rfl⟩ := List.mem_map.mp hq1
      rw [(pipeBody_geom s.bird p).1]
      have := hbd2 p hp
      linarith
  · rw [updatePipes_frozen c now u s hs]
    exact h

theorem pipesOrdered_step (c : Canvas) (i : Input) (s : State)
    (h : PipesOrdered c s.pipes) : PipesOrdered c (step c i s).pipes := by
  cases i with
  | tick now u f =>
    simp only [step]
    unfold gameLoop
    split
    · exact h
    · simp only
      rw [checkCollisions_pipes]
      apply pipesOrdered_updatePipes
      rw [updateBird_pipes]
      exact h
  | jump =>
    simp only [step]
    rw [jumpBird_pipes]
    exact h

theorem pipesOrdered_run (c : Canvas) (evs : List Input) (s : State)
    (h : PipesOrdered c s.pipes) : PipesOrdered c (run c evs s).pipes := by
  induction evs generalizing s with
  | nil => exact h
  | cons i rest ih => exact ih _ (pipesOrdered_step c i s h)

/-- C18: in every state reached from startGame by any sequence of frames (any clock
values and random draws) and jumps, the pipe list is strictly increasing in x from first
to last, and every pipe has x <= CANVAS_WIDTH - PIPE_SPEED, so that a pipe appended at
CANVAS_WIDTH lies to the right of all the others. -/
theorem pipes_ordered (c : Canvas) (s0 : State) (now : ℚ) (f : ℕ) (evs : List Input) :
    (run c evs (startGame c now f s0)).pipes.Pairwise (fun p q => p.x < q.x) ∧
      (∀ p ∈ (run c evs (startGame c now f s0)).pipes, p.x ≤ CANVAS_WIDTH c - PIPE_SPEED) ∧
      (∀ u : ℚ, ∀ p ∈ (run c evs (startGame c now f s0)).pipes, p.x < (newPipe c u).x) := by
  have h := pipesOrdered_run c evs (startGame c now f s0)
    ⟨List.Pairwise.nil, fun p hp => by simp [startGame] at hp⟩
  refine ⟨h.1, h.2, ?_⟩
  intro u p hp
  have := h.2 p hp
  simp only [newPipe]
  norm_num [PIPE_SPEED] at this
  linarith

/-! ## Scrolling -/

theorem jumpBird_gameState (s : State) : (jumpBird s).gameState = s.gameState := by
  unfold jumpBird
  split <;> rfl

theorem checkCollisions_not_playing (c : Canvas) (s : State) (h : s.gameState ≠ .playing) :
    (checkCollisions c s).gameState ≠ .playing := by
  rw [checkCollisions_frozen c s h]
  exact h

theorem step_not_playing (c : Canvas) (i : Input) (s : State) (h : s.gameState ≠ .playing) :
    (step c i s).gameState ≠ .playing := by
  cases i with
  | tick now u f =>
    simp only [step]
    unfold gameLoop
    split
    · exact h
    · simp only
      rw [updateBird_frozen s h, updatePipes_frozen c now u s h,
        checkCollisions_frozen c s h]
      exact h
  | jump =>
    simp only [step]
    rw [jumpBird_gameState]
    exact h

theorem run_not_playing (c : Canvas) (evs : List Input) (s : State)
    (h : s.gameState ≠ .playing) : (run c evs s).gameState ≠ .playing := by
  induction evs generalizing s with
  | nil => exact h
  | cons i rest ih => exact ih _ (step_not_playing c i s h)

theorem gameLoop_pipes_playing (c : Canvas) (now u : ℚ) (f : ℕ) (s : State)
    (hs : s.gameState = .playing) :
    (gameLoop c now u f s).pipes =
      (((spawnStep c now u (updateBird s)).pipes.map
        (fun p => (pipeBody (updateBird s).bird p 0).1)).filter
          (fun q => decide (q.x + q.width > 0))) := by
  unfold gameLoop
  rw [if_neg (by simp [hs])]
  simp only
  rw [checkCollisions_pipes,
    updatePipes_pipes c now u _ (by rw [updateBird_gameState]; exact hs), pipeLoop_fst]

theorem forall₂_append_split (R : Pipe → Pipe → Prop) (A B l : List Pipe)
    (h : List.Forall₂ R (A ++ B) l) :
    ∃ la lb, l = la ++ lb ∧ List.Forall₂ R A la ∧ List.Forall₂ R B lb := by
  induction A generalizing l with
  | nil => exact ⟨[], l, rfl, List.Forall₂.nil, h⟩
  | cons a A ih =>
    cases h with
    | cons hab htl =>
      obtain ⟨la, lb, rfl, h1, h2⟩ := ih _ htl
      exact ⟨_ :: la, lb, rfl, List.Forall₂.cons hab h1, h2⟩

theorem filter_scrolled (bird : Option Bird) (m : ℕ) (ps : List Pipe) :
    ((ps.map (fun p => (pipeBody bird p 0).1)).filter
        (fun q => decide (q.x + q.width > 0))).filter
        (fun q => decide (m = 0 ∨ 0 < q.x - (m : ℚ) * PIPE_SPEED + q.width)) =
      (ps.filter (fun p => decide (m + 1 = 0 ∨
        0 < p.x - ((m + 1 : ℕ) : ℚ) * PIPE_SPEED + p.width))).map
        (fun p => (pipeBody bird p 0).1) := by
  rw [List.filter_filter, List.filter_map]
  congr 1
  apply List.filter_congr
  intro p _
  obtain ⟨g1, g2, _, _⟩ := pipeBody_geom bird p
  simp only [Function.comp, g1, g2]
  rw [Bool.eq_iff_iff]
  simp only [Bool.and_eq_true, decide_eq_true_eq, Nat.succ_ne_zero, false_or, Nat.cast_add,
    Nat.cast_one, PIPE_SPEED]
  constructor
  · rintro ⟨h1 | h1, h2⟩
    · rw [h1]
      norm_num
      linarith
    · linarith
  · intro h
    have hm : (0 : ℚ) ≤ m := Nat.cast_nonneg m
    exact ⟨Or.inr (by linarith), by nlinarith⟩

theorem run_scroll (c : Canvas) (evs : List Input) (s : State)
    (hfin : (run c evs s).gameState = .playing) :
    ∃ l1 l2, (run c evs s).pipes = l1 ++ l2 ∧
      List.Forall₂
        (fun p q => q.x = p.x - (evs.countP isTick : ℚ) * PIPE_SPEED ∧ q.width = p.width ∧
          q.gapTop = p.gapTop ∧ q.gapBottom = p.gapBottom)
        (s.pipes.filter (fun p => decide (evs.countP isTick = 0 ∨
          0 < p.x - (evs.countP isTick : ℚ) * PIPE_SPEED + p.width))) l1 := by
  induction evs generalizing s with
  | nil =>
    refine ⟨s.pipes, [], by simp [run], ?_⟩
    simp only [List.countP_nil, true_or, decide_True, List.filter_true]
    rw [List.forall₂_same]
    intro x _
    simp
  | cons i rest ih =>
    have hs : s.gameState = .playing := by
      by_contra hne
      exact run_not_playing c (i :: rest) s hne hfin
    simp only [run] at hfin ⊢
    obtain ⟨l1, l2, hl, hrel⟩ := ih _ hfin
    cases i with
    | jump =>
      simp only [step] at hl hrel ⊢
      rw [jumpBird_pipes] at hrel
      have hc : (Input.jump :: rest).countP isTick = rest.countP isTick := by
        simp [List.countP_cons, isTick]
      rw [hc]
      exact ⟨l1, l2, hl, hrel⟩
    | tick now u f =>
      simp only [step] at hl hrel ⊢
      have hc : (Input.tick now u f :: rest).countP isTick = rest.countP isTick + 1 := by
        simp [List.countP_cons, isTick]
      rw [hc]
      have hsp : (spawnStep c now u (updateBird s)).pipes =
          s.pipes ++ (if now - (updateBird s).lastPipeTime > PIPE_SPAWN_INTERVAL then
            [newPipe c u] else []) := by
        rw [spawnStep_pipes, updateBird_pipes]
        split <;> simp
      rw [gameLoop_pipes_playing c now u f s hs, hsp, List.map_append, List.filter_append,
        List.filter_append] at hrel
      obtain ⟨la, lb, rfl, h1, _⟩ := forall₂_append_split _ _ _ _ hrel
      rw [filter_scrolled, List.forall₂_map_left_iff] at h1
      refine ⟨la, lb ++ l2, by rw [hl, List.append_assoc], ?_⟩
      refine h1.imp ?_
      intro p q hpq
      obtain ⟨g1, g2, g3, g4⟩ := pipeBody_geom (updateBird s).bird p
      obtain ⟨q1, q2, q3, q4⟩ := hpq
      refine ⟨?_, by rw [q2, g2], by rw [q3, g3], by rw [q4, g4]⟩
      rw [q1, g1]
      push_cast
      ring

/-- C16: on a playing state the loop of updatePipes lowers the x of every pipe by exactly
PIPE_SPEED and keeps its width, gapTop and gapBottom, and the pipes left after the tick are
among those; hence after a run with n frames that is still playing, the pipes of the
initial list that have not been pruned (all of them for n = 0, else those with
x - n * PIPE_SPEED + width > 0) stand, in order, at the head of the list with
x = x0 - n * PIPE_SPEED and unchanged width and gap. -/
theorem scrolling (c : Canvas) (now u : ℚ) (s : State) (hs : s.gameState = .playing) :
    (∃ out : List Pipe,
      out = (pipeLoop s.bird (spawnStep c now u s).pipes s.score).1 ∧
      List.Forall₂
        (fun p q => q.x = p.x - PIPE_SPEED ∧ q.width = p.width ∧ q.gapTop = p.gapTop ∧
          q.gapBottom = p.gapBottom)
        (spawnStep c now u s).pipes out ∧
      (∀ q ∈ (updatePipes c now u s).pipes, q ∈ out)) ∧
    (∀ evs : List Input, (run c evs s).gameState = .playing →
      ∃ l1 l2, (run c evs s).pipes = l1 ++ l2 ∧
        List.Forall₂
          (fun p q => q.x = p.x - (evs.countP isTick : ℚ) * PIPE_SPEED ∧
            q.width = p.width ∧ q.gapTop = p.gapTop ∧ q.gapBottom = p.gapBottom)
          (s.pipes.filter (fun p => decide (evs.countP isTick = 0 ∨
            0 < p.x - (evs.countP isTick : ℚ) * PIPE_SPEED + p.width))) l1) := by
  refine ⟨⟨_, rfl, ?_, ?_⟩, fun evs hfin => run_scroll c evs s hfin⟩
  · rw [pipeLoop_fst]
    exact forall₂_map_of _ _ (pipeBody_geom s.bird) _
  · rw [updatePipes_pipes c now u s hs]
    intro q hq
    exact (List.mem_filter.mp hq).1

theorem scrolling_witness :
    scrollState.gameState = .playing ∧
    ((∃ out : List Pipe,
      out = (pipeLoop scrollState.bird (spawnStep sampleCanvas 0 0 scrollState).pipes
        scrollState.score).1 ∧
      List.Forall₂
        (fun p q => q.x = p.x - PIPE_SPEED ∧ q.width = p.width ∧ q.gapTop = p.gapTop ∧
          q.gapBottom = p.gapBottom)
        (spawnStep sampleCanvas 0 0 scrollState).pipes out ∧
      (∀ q ∈ (updatePipes sampleCanvas 0 0 scrollState).pipes, q ∈ out)) ∧
    (∀ evs : List Input, (run sampleCanvas evs scrollState).gameState = .playing →
      ∃ l1 l2, (run sampleCanvas evs scrollState).pipes = l1 ++ l2 ∧
        List.Forall₂
          (fun p q => q.x = p.x - (evs.countP isTick : ℚ) * PIPE_SPEED ∧
            q.width = p.width ∧ q.gapTop = p.gapTop ∧ q.gapBottom = p.gapBottom)
          (scrollState.pipes.filter (fun p => decide (evs.countP isTick = 0 ∨
            0 < p.x - (evs.countP isTick : ℚ) * PIPE_SPEED + p.width))) l1)) ∧
    scrollState.pipes =
      [ { x := 400, width := 60, gapTop := 100, gapBottom := 240, scored := false } ] ∧
    tenTicks.countP isTick = 10 ∧
    (run sampleCanvas tenTicks scrollState).gameState = .playing ∧
    (run sampleCanvas tenTicks scrollState).pipes =
      [ { x := 370, width := 60, gapTop := 100, gapBottom := 240, scored := false } ] :=
  ⟨rfl, scrolling sampleCanvas 0 0 scrollState rfl, rfl, by decide, by
    decide!, by
    decide!⟩

theorem checkCollisions_pure_witness :
    ((checkCollisions sampleCanvas (updateBird fallingState)).bird =
        (updateBird fallingState).bird ∧
      (checkCollisions sampleCanvas (updateBird fallingState)).pipes =
        (updateBird fallingState).pipes ∧
      (checkCollisions sampleCanvas (updateBird fallingState)).score =
        (updateBird fallingState).score ∧
      (checkCollisions sampleCanvas (updateBird fallingState)).lastPipeTime =
        (updateBird fallingState).lastPipeTime ∧
      (checkCollisions sampleCanvas (updateBird fallingState)).animationId =
        (updateBird fallingState).animationId ∧
      ((checkCollisions sampleCanvas (updateBird fallingState)).gameState =
          (updateBird fallingState).gameState ∨
        ((updateBird fallingState).gameState = .playing ∧
          (checkCollisions sampleCanvas (updateBird fallingState)).gameState = .gameover)) ∧
      (∀ t : State, t.gameState = (updateBird fallingState).gameState →
        t.bird = (updateBird fallingState).bird → t.pipes = (updateBird fallingState).pipes →
        (checkCollisions sampleCanvas t).gameState =
          (checkCollisions sampleCanvas (updateBird fallingState)).gameState) ∧
      checkCollisions sampleCanvas (checkCollisions sampleCanvas (updateBird fallingState)) =
        checkCollisions sampleCanvas (updateBird fallingState)) ∧
    (checkCollisions sampleCanvas (updateBird fallingState)).gameState = .gameover :=
  ⟨checkCollisions_pure sampleCanvas (updateBird fallingState), by
    decide!⟩

theorem pipes_ordered_witness :
    ((run sampleCanvas spawnRun
        (startGame sampleCanvas 0 1 (initialState sampleCanvas))).pipes.Pairwise
        (fun p q => p.x < q.x) ∧
      (∀ p ∈ (run sampleCanvas spawnRun
          (startGame sampleCanvas 0 1 (initialState sampleCanvas))).pipes,
        p.x ≤ CANVAS_WIDTH sampleCanvas - PIPE_SPEED) ∧
      (∀ u : ℚ, ∀ p ∈ (run sampleCanvas spawnRun
          (startGame sampleCanvas 0 1 (initialState sampleCanvas))).pipes,
        p.x < (newPipe sampleCanvas u).x)) ∧
    (run sampleCanvas spawnRun (startGame sampleCanvas 0 1 (initialState sampleCanvas))).pipes =
      [ { x := 394, width := 60, gapTop := 190, gapBottom := 330, scored := false },
        { x := 397, width := 60, gapTop := 135, gapBottom := 275, scored := false } ] :=
  ⟨pipes_ordered sampleCanvas (initialState sampleCanvas) 0 1 spawnRun, by
    decide!⟩

end FlappyBird
